import Mathlib

/-
Verification development for the CRSS regulation-parsing pipeline.

This file gives a shallow embedding of the hierarchical provision graph
builder and its semantic classifiers:
  src/ingestion/parse/base/requirement_patterns.py
  src/ingestion/parse/base/parser_utils.py
  src/ingestion/parse/base/parser_core.py
  src/ingestion/parse/base/cross_refs.py
  src/ingestion/parse/base/hierarchy.py
  src/domain/ontology/lang_keywords.py
  src/domain/ontology/actor_roles.py
  src/domain/regulations_catalog.py
  src/canonicalization/semantics.py
  src/ingestion/parse/eu_ai_parser.py
  src/ingestion/parse/mdr_parser.py

Modelling conventions.  Python regular expressions are embedded as
hand-written executable matchers over lists of characters; every regex
in the sources falls into a small number of shapes (word-bounded phrase
search, optional lookahead class, quoted-term definition pattern,
anchored keyword-plus-numeral prefixes, numbering prefixes with greedy
whitespace), and each shape is implemented with the exact semantics of
the corresponding Python pattern, including greedy-with-backtracking
capture of the trailing group.  Case-insensitive matching and the word
character class are modelled at ASCII precision (the sources only rely
on ASCII case folding for the texts the claims quantify over); Unicode
NFKD normalization in normalize_text is the identity on such texts and
is therefore not modelled.  File provenance, content hashing and HTML
offsets depend on raw file input/output and are outside the embedding;
the provision record keeps every field that the higher-level logic
reads or that the claims mention.
-/

namespace Crss

/-- Whitespace test matching the characters Python's regex class \s
accepts on the texts in scope. -/
def isWs (c : Char) : Bool :=
  c == ' ' || c == '\t' || c == '\n' || c == '\r' || c == Char.ofNat 11 || c == Char.ofNat 12

/-- Word character test for the regex class \w and for word boundaries,
at ASCII precision. -/
def isWordChar (c : Char) : Bool :=
  c.isAlphanum || c == '_'

/-- Lower-casing for case-insensitive matching, at ASCII precision. -/
def lc (c : Char) : Char := c.toLower

/-- Python str.upper at ASCII precision; structurally recursive so that
concrete instances evaluate inside the kernel, unlike the position-based
core String functions. -/
def pyUpper (s : String) : String := String.mk (s.data.map Char.toUpper)

/-- Replacement of spaces by underscores, as str.replace of a single
character. -/
def underscoreSpaces (s : String) : String :=
  String.mk (s.data.map (fun c => if c == ' ' then '_' else c))

/-- The whitespace-separated words of a text, with the current word
accumulated in reverse. -/
def normWordsAux (cur : List Char) : List Char → List (List Char)
  | [] => if cur.isEmpty then [] else [cur.reverse]
  | c :: cs =>
    if isWs c then
      if cur.isEmpty then normWordsAux [] cs else cur.reverse :: normWordsAux [] cs
    else normWordsAux (c :: cur) cs

/-- Joining words with a separator character. -/
def joinWith (sep : Char) : List (List Char) → List Char
  | [] => []
  | [w] => w
  | w :: ws => w ++ sep :: joinWith sep ws

/-- The ASCII apostrophe character. -/
def apos : Char := Char.ofNat 39

/-- The Unicode right single quotation mark. -/
def rsq : Char := Char.ofNat 8217

/-- The ASCII double quote character. -/
def dq : Char := Char.ofNat 34

/-- Match a lower-cased phrase case-insensitively against a prefix of the
text; return the remaining characters on success. -/
def matchCI : List Char → List Char → Option (List Char)
  | [], rest => some rest
  | _ :: _, [] => none
  | p :: ps, c :: cs => if lc c == p then matchCI ps cs else none

/-- Condition on the characters following a matched phrase: with
lookahead the Python patterns require (?=\s|:|,|\.|$) after the
trailing word boundary, without it just the word boundary \b. -/
def tailOk (lookahead : Bool) : List Char → Bool
  | [] => true
  | c :: _ =>
    if lookahead then isWs c || c == ':' || c == ',' || c == '.'
    else !(isWordChar c)

/-- Previous-character side of a word boundary before a phrase that
starts with a word character. -/
def prevOk : Option Char → Bool
  | none => true
  | some p => !(isWordChar p)

/-- Does the phrase match at this exact position, with a given condition
on the remaining characters. -/
def hitAt (phrase : List Char) (after : List Char → Bool) (s : List Char) : Bool :=
  match matchCI phrase s with
  | some rest => after rest
  | none => false

/-- Scan the text for a case-insensitive occurrence of the phrase that
has a word boundary before it and satisfies the given trailing
condition, as re.search of a \b-anchored pattern under re.I does. -/
def searchFrom (phrase : List Char) (after : List Char → Bool) :
    Option Char → List Char → Bool
  | prev, [] => prevOk prev && hitAt phrase after []
  | prev, c :: cs =>
    (prevOk prev && hitAt phrase after (c :: cs)) || searchFrom phrase after (some c) cs

/-- Word-bounded search of a phrase in a text, case-insensitively, with
the trailing boundary or lookahead of the requirement patterns. -/
def wordSearch (phrase : String) (la : Bool) (text : String) : Bool :=
  searchFrom (phrase.data.map lc) (tailOk la) none text.data

/-- After \s+ the keyword of a definition pattern must match, followed
by a word boundary; the keyword starts with a letter, so the greedy
whitespace run cannot be backtracked into. -/
def wsPlusKw (kw : List Char) : List Char → Bool
  | [] => false
  | c :: cs =>
    isWs c &&
      (match matchCI kw (cs.dropWhile isWs) with
       | some rest => tailOk false rest
       | none => false)

/-- Inside a quoted definition pattern q[^q]+q\s+kw\b: the class [^q]+
cannot contain the quote, so the closing quote is the first quote after
the opening one and the interior must be non-empty. -/
def interiorScan (q : Char) (kw : List Char) : List Char → Bool
  | [] => false
  | c :: cs => if c == q then wsPlusKw kw cs else interiorScan q kw cs

/-- Match of the quoted definition pattern starting right after an
opening quote: at least one non-quote character, the closing quote,
whitespace and the keyword. -/
def afterOpenQuote (q : Char) (kw : List Char) : List Char → Bool
  | [] => false
  | c :: cs => if c == q then false else interiorScan q kw cs

/-- Search the whole text for the quoted definition pattern
q[^q]+q\s+kw\b, as re.search does. -/
def quotedKwScan (q : Char) (kw : List Char) : List Char → Bool
  | [] => false
  | c :: cs => (c == q && afterOpenQuote q kw cs) || quotedKwScan q kw cs

/-- One requirement pattern from REQ_PATTERNS: either a word-bounded
phrase (with an optional trailing lookahead class) or a quoted
definition pattern with a given quote character and keyword. -/
inductive Pat where
  | word : String → Bool → Pat
  | quoted : Char → String → Pat
deriving DecidableEq, Repr

/-- Semantics of one requirement pattern against a text, mirroring
re.search with re.I. -/
def Pat.matches (p : Pat) (text : String) : Bool :=
  match p with
  | Pat.word phrase la => wordSearch phrase la text
  | Pat.quoted q kw => quotedKwScan q (kw.data.map lc) text.data

/-- One language's requirement pattern table, with the four categories
in the declaration order of the source dict. -/
structure ReqTable where
  obligation : List Pat
  prohibition : List Pat
  permission : List Pat
  definition : List Pat

/-- REQ_PATTERNS for English from requirement_patterns.py; the
semantic_layer module imported by canonicalization/semantics.py carries
the same table verbatim. -/
def REQ_PATTERNS_EN : ReqTable where
  obligation :=
    [Pat.word "shall" true, Pat.word "must" true, Pat.word "is required to" false,
     Pat.word "is obliged to" false, Pat.word "has to" false, Pat.word "shall ensure" false]
  prohibition :=
    [Pat.word "shall not" false, Pat.word "may not" false, Pat.word "must not" false,
     Pat.word "is prohibited" false, Pat.word "shall refrain from" false]
  permission :=
    [Pat.word "may" true, Pat.word "is permitted" false, Pat.word "is allowed to" false]
  definition :=
    [Pat.quoted apos "means", Pat.quoted dq "means", Pat.word "refers to" false,
     Pat.word "denotes" false]

/-- REQ_PATTERNS for German. -/
def REQ_PATTERNS_DE : ReqTable where
  obligation :=
    [Pat.word "muss" false, Pat.word "verpflichtet" false,
     Pat.word "hat sicherzustellen" false, Pat.word "ist verpflichtet" false]
  prohibition :=
    [Pat.word "darf nicht" false, Pat.word "ist untersagt" false, Pat.word "verboten" false]
  permission :=
    [Pat.word "darf" false, Pat.word "ist erlaubt" false]
  definition :=
    [Pat.quoted apos "bezeichnet", Pat.quoted dq "bezeichnet",
     Pat.word "bezeichnet" false, Pat.word "steht für" false]

/-- REQ_PATTERNS for French. -/
def REQ_PATTERNS_FR : ReqTable where
  obligation :=
    [Pat.word "doit" false, Pat.word "est tenu de" false, Pat.word "est obligé de" false]
  prohibition :=
    [Pat.word "ne doit pas" false, Pat.word "est interdit" false]
  permission :=
    [Pat.word "peut" false, Pat.word "est autorisé à" false]
  definition :=
    [Pat.quoted apos "signifie", Pat.quoted dq "signifie",
     Pat.word "signifie" false, Pat.word "désigne" false]

/-- REQ_PATTERNS.get(lang, REQ_PATTERNS of EN): the dict lookup with
its English default, on an already upper-cased language code. -/
def reqPatternsGet (lang : String) : ReqTable :=
  if lang == "EN" then REQ_PATTERNS_EN
  else if lang == "DE" then REQ_PATTERNS_DE
  else if lang == "FR" then REQ_PATTERNS_FR
  else REQ_PATTERNS_EN

/-- is_requirement_text from requirement_patterns.py: true when any
pattern of any category matches, iterating the categories in dict
order. -/
def is_requirement_text (text lang : String) : Bool :=
  let patterns := reqPatternsGet (pyUpper lang)
  (patterns.obligation ++ patterns.prohibition ++ patterns.permission ++
    patterns.definition).any (fun p => p.matches text)

/-- classify_requirement_type from requirement_patterns.py: flatten the
categories in the fixed order prohibition, obligation, permission,
definition and return the type of the first matching pattern. -/
def classify_requirement_type (text lang : String) : String :=
  let patterns := reqPatternsGet (pyUpper lang)
  let flat :=
    patterns.prohibition.map (fun p => ("prohibition", p)) ++
    patterns.obligation.map (fun p => ("obligation", p)) ++
    patterns.permission.map (fun p => ("permission", p)) ++
    patterns.definition.map (fun p => ("definition", p))
  match flat.find? (fun tp => tp.2.matches text) with
  | some tp => tp.1
  | none => "other"

/-- LEVEL_ORDER from base/hierarchy.py: the fixed numeric ranking of
structural levels. -/
def LEVEL_ORDER : List (String × Nat) :=
  [("title", 0), ("recital", 1), ("chapter", 2), ("section", 3), ("article", 4),
   ("paragraph", 5), ("letter", 6), ("subpoint", 7), ("annex", 0)]

/-- LEVEL_ORDER.get(level, 99): the dict lookup with its default. -/
def levelRank (level : String) : Nat :=
  ((LEVEL_ORDER.find? (fun kv => kv.1 == level)).map (fun kv => kv.2)).getD 99

/-- One language's structural keyword table from lang_keywords.py; the
section keyword field carries a suffix because section is a reserved
word in Lean. -/
structure Keywords where
  title : String
  chapter : String
  sectionKw : String
  article : String
  annex : String

/-- LANG_KEYWORDS for English. -/
def LANG_KEYWORDS_EN : Keywords :=
  ⟨"TITLE", "CHAPTER", "SECTION", "Article", "ANNEX"⟩

/-- LANG_KEYWORDS for German. -/
def LANG_KEYWORDS_DE : Keywords :=
  ⟨"TITEL", "KAPITEL", "ABSCHNITT", "Artikel", "ANHANG"⟩

/-- LANG_KEYWORDS for French. -/
def LANG_KEYWORDS_FR : Keywords :=
  ⟨"TITRE", "CHAPITRE", "SECTION", "Article", "ANNEXE"⟩

/-- LANG_KEYWORDS.get(lang, LANG_KEYWORDS of EN), on an upper-cased
language code. -/
def langKeywordsGet (lang : String) : Keywords :=
  if lang == "EN" then LANG_KEYWORDS_EN
  else if lang == "DE" then LANG_KEYWORDS_DE
  else if lang == "FR" then LANG_KEYWORDS_FR
  else LANG_KEYWORDS_EN

/-- normalize_text from parser_utils.py: collapse whitespace runs to a
single space and trim, here as joining the whitespace-separated words;
Unicode NFKD is the identity on the texts in scope and is not
modelled. -/
def normalize_text (text : String) : String :=
  String.mk (joinWith ' ' (normWordsAux [] text.data))

/-- Membership of a character in the case-insensitive Roman numeral
class [IVXLCDM] under re.I. -/
def isRomanCI (c : Char) : Bool :=
  "ivxlcdm".data.contains (lc c)

/-- Consume the keyword case-insensitively at the start of the text,
then the mandatory whitespace of \s+; returns the characters after the
whitespace run.  The numeral classes that follow contain no whitespace,
so the greedy run is never backtracked into. -/
def afterKwWs (kw : List Char) (s : List Char) : Option (List Char) :=
  match matchCI kw s with
  | some rest =>
    match rest with
    | c :: cs => if isWs c then some (cs.dropWhile isWs) else none
    | [] => none
  | none => none

/-- A non-empty run of the class followed by a word boundary, as
[IVXLCDM]+\b or \d+\b: shrinking the greedy run puts word characters on
both sides of the boundary, so only the maximal run can match. -/
def classRunB (cls : Char → Bool) (s : List Char) : Bool :=
  !(s.takeWhile cls).isEmpty && tailOk false (s.dropWhile cls)

/-- Does the text start with the keyword, whitespace and a Roman
numeral with trailing word boundary (the annex and chapter shapes). -/
def kwRomanStart (kw : String) (text : String) : Bool :=
  match afterKwWs (kw.data.map lc) text.data with
  | some rest => classRunB isRomanCI rest
  | none => false

/-- Does the text start with the keyword, whitespace and either a Roman
or an Arabic numeral with trailing word boundary (the section shape
([IVXLCDM]+|\d+)\b, alternation tried left to right). -/
def kwRomanOrDigitStart (kw : String) (text : String) : Bool :=
  match afterKwWs (kw.data.map lc) text.data with
  | some rest => classRunB isRomanCI rest || classRunB Char.isDigit rest
  | none => false

/-- Does the text start with the keyword, whitespace and at least one
digit, with no trailing boundary (the article shape \d+). -/
def kwDigitStart (kw : String) (text : String) : Bool :=
  match afterKwWs (kw.data.map lc) text.data with
  | some rest =>
    match rest with
    | c :: _ => c.isDigit
    | [] => false
  | none => false

/-- The fourteen characters of the class [IVXLCDM] under re.I. -/
def isRomanLetter (c : Char) : Bool :=
  ['I', 'V', 'X', 'L', 'C', 'D', 'M', 'i', 'v', 'x', 'l', 'c', 'd', 'm'].contains c

/-- The ten characters of the class \d at ASCII precision. -/
def isArabicDigit (c : Char) : Bool :=
  ['0', '1', '2', '3', '4', '5', '6', '7', '8', '9'].contains c

/-- A classified block, as the dict returned by classify_block. -/
structure Block where
  type : String
  text : String
deriving DecidableEq, Repr

/-- classify_block from parser_utils.py, on a tag's name and extracted
text: heading shapes are tried in the order annex, chapter, section,
article, then the table tag, and everything else is a paragraph. -/
def classify_block (tagName rawText lang : String) : Option Block :=
  let keywords := langKeywordsGet (pyUpper lang)
  let text := normalize_text rawText
  if text == "" then none
  else if kwRomanStart keywords.annex text then some ⟨"annex_title", text⟩
  else if kwRomanStart keywords.chapter text then some ⟨"chapter_title", text⟩
  else if kwRomanOrDigitStart keywords.sectionKw text then some ⟨"section_title", text⟩
  else if kwDigitStart keywords.article text then some ⟨"article_title", text⟩
  else if tagName == "table" then some ⟨"table", text⟩
  else some ⟨"paragraph", text⟩

/-- Greedy \s+ followed by the capture (.+), whose dot never matches a
newline: the capture starts at the first non-whitespace character and
stops before the next newline; when only whitespace remains, the
whitespace run backtracks down to the last non-newline character, which
becomes the one-character capture, and the match fails if every
backtracking position sits on a newline. -/
def wsPlusBody (s : List Char) : Option (List Char) :=
  match s with
  | [] => none
  | c :: cs =>
    if isWs c then
      if (cs.dropWhile isWs).isEmpty then
        match (cs.filter (fun d => !(d == '\n'))).getLast? with
        | some d => some [d]
        | none => none
      else some ((cs.dropWhile isWs).takeWhile (fun d => !(d == '\n')))
    else none

/-- Greedy \s* followed by the newline-free capture (.+), with the same
backtracking as the \s+ shape but allowing an empty whitespace run. -/
def wsStarBody (s : List Char) : Option (List Char) :=
  if (s.dropWhile isWs).isEmpty then
    match (s.filter (fun d => !(d == '\n'))).getLast? with
    | some d => some [d]
    | none => none
  else some ((s.dropWhile isWs).takeWhile (fun d => !(d == '\n')))

/-- A maximal digit run followed by a literal dot, as \d+\. in the
numbering patterns; returns the run and the characters after the dot. -/
def digitsDot (s : List Char) : Option (List Char × List Char) :=
  let run := s.takeWhile Char.isDigit
  let rest := s.dropWhile Char.isDigit
  if run.isEmpty then none
  else
    match rest with
    | c :: rs => if c == '.' then some (run, rs) else none
    | [] => none

/-- The dotted pattern ^(\d+\.\d+\.\d+)\s+(.+). -/
def dnDotted3 (s : List Char) : Option (String × String) :=
  match digitsDot s with
  | some (d1, r1) =>
    match digitsDot r1 with
    | some (d2, r2) =>
      let d3 := r2.takeWhile Char.isDigit
      if d3.isEmpty then none
      else
        match wsPlusBody (r2.dropWhile Char.isDigit) with
        | some body => some (String.mk (d1 ++ '.' :: d2 ++ '.' :: d3), String.mk body)
        | none => none
    | none => none
  | none => none

/-- The dotted pattern ^(\d+\.\d+)\s+(.+). -/
def dnDotted2 (s : List Char) : Option (String × String) :=
  match digitsDot s with
  | some (d1, r1) =>
    let d2 := r1.takeWhile Char.isDigit
    if d2.isEmpty then none
    else
      match wsPlusBody (r1.dropWhile Char.isDigit) with
      | some body => some (String.mk (d1 ++ '.' :: d2), String.mk body)
      | none => none
  | none => none

/-- The pattern ^(\d+)\.\s+(.+); the dot is outside the capture. -/
def dnDotOne (s : List Char) : Option (String × String) :=
  match digitsDot s with
  | some (d1, r1) =>
    match wsPlusBody r1 with
    | some body => some (String.mk d1, String.mk body)
    | none => none
  | none => none

/-- The parenthesised pattern ^\((run)\)\s*(.+) for a character class,
with the run required non-empty and maximal. -/
def dnParenRun (cls : Char → Bool) (s : List Char) : Option (String × String) :=
  match s with
  | c :: cs =>
    if c == '(' then
      let run := cs.takeWhile cls
      if run.isEmpty then none
      else
        match cs.dropWhile cls with
        | d :: rest =>
          if d == ')' then
            match wsStarBody rest with
            | some body => some (String.mk run, String.mk body)
            | none => none
          else none
        | [] => none
    else none
  | [] => none

/-- The parenthesised pattern ^\(([a-z])\)\s*(.+) with exactly one
letter, case-insensitive. -/
def dnParenLetter (s : List Char) : Option (String × String) :=
  match s with
  | c :: a :: d :: rest =>
    if c == '(' && a.isAlpha && d == ')' then
      match wsStarBody rest with
      | some body => some (String.mk [a], String.mk body)
      | none => none
    else none
  | _ => none

/-- detect_numbering from parser_utils.py: the six anchored numbering
patterns in priority order, first match wins; the fallback returns the
text unchanged with no level. -/
def detect_numbering (text : String) : Option String × Option String × String :=
  let s := text.data
  match dnDotted3 s with
  | some (mk, body) => (some "subsection", some mk, body)
  | none =>
  match dnDotted2 s with
  | some (mk, body) => (some "subsection", some mk, body)
  | none =>
  match dnDotOne s with
  | some (mk, body) => (some "section", some mk, body)
  | none =>
  match dnParenRun Char.isDigit s with
  | some (mk, body) => (some "paragraph", some mk, body)
  | none =>
  match dnParenLetter s with
  | some (mk, body) => (some "point", some mk, body)
  | none =>
  match dnParenRun isRomanCI s with
  | some (mk, body) => (some "subpoint", some mk, body)
  | none => (none, none, text)

/-- One findall step for the cross-reference patterns kw\s+(run): the
keyword case-insensitively, mandatory whitespace, then a maximal
non-empty run of the numeral class; returns the captured run and the
characters after the match. -/
def tryKwNum (kw : List Char) (numOk : Char → Bool) (s : List Char) :
    Option (List Char × List Char) :=
  match matchCI kw s with
  | some rest =>
    match rest with
    | c :: cs =>
      if isWs c then
        let afterWsRun := cs.dropWhile isWs
        let run := afterWsRun.takeWhile numOk
        if run.isEmpty then none else some (run, afterWsRun.dropWhile numOk)
      else none
    | [] => none
  | none => none

/-- Left-to-right non-overlapping scan of re.findall, resuming after
each match; the fuel starts at the text length and strictly exceeds the
number of scan steps, each of which consumes at least one character. -/
def findKwNumsAux (kw : List Char) (numOk : Char → Bool) :
    Nat → List Char → List (List Char)
  | 0, _ => []
  | _ + 1, [] => []
  | fuel + 1, c :: cs =>
    match tryKwNum kw numOk (c :: cs) with
    | some (run, rest) => run :: findKwNumsAux kw numOk fuel rest
    | none => findKwNumsAux kw numOk fuel cs

/-- All captures of re.findall for a kw\s+(run) pattern under re.I. -/
def findKwNums (kw : String) (numOk : Char → Bool) (text : String) : List String :=
  (findKwNumsAux (kw.data.map lc) numOk text.data.length text.data).map String.mk

/-- extract_references from base/cross_refs.py: all Article numbers and
Annex Roman numerals found in the text, as normalized tokens. -/
def extract_references (text lang : String) : List String :=
  let keywords := langKeywordsGet (pyUpper lang)
  (findKwNums keywords.article Char.isDigit text).map (fun m => "Article_" ++ m) ++
    (findKwNums keywords.annex isRomanCI text).map (fun m => "Annex_" ++ m)

/-- Trailing condition of the role patterns \bkw(?:['’]s|\w+)?\b: the
empty alternative needs a plain word boundary, the possessive
alternative a quote, an s and a boundary, and the \w+ alternative
swallows the following word run, after which the boundary always
holds. -/
def suffixAlts (s : List Char) : Bool :=
  tailOk false s ||
    (match s with
     | c :: c2 :: rest => (c == apos || c == rsq) && lc c2 == 's' && tailOk false rest
     | _ => false) ||
    (match s with
     | c :: _ => isWordChar c
     | [] => false)

/-- Search of one role keyword pattern in the text, with the flexible
suffix of detect_roles_from_keywords. -/
def roleSearch (phrase : String) (text : String) : Bool :=
  searchFrom (phrase.data.map lc) suffixAlts none text.data

/-- A regulation family's role vocabulary keyed by language, as the
nested dicts of actor_roles.py. -/
structure RoleKeywordMap where
  en : List (String × List String)
  fr : List (String × List String)
  de : List (String × List String)

/-- keyword_map.get(lang, keyword_map.get("EN", {})) for the maps in
the source, which all carry exactly the EN, FR and DE keys. -/
def roleMapGet (m : RoleKeywordMap) (lang : String) : List (String × List String) :=
  if lang == "EN" then m.en
  else if lang == "FR" then m.fr
  else if lang == "DE" then m.de
  else m.en

/-- EU_AI_ROLE_KEYWORDS from actor_roles.py, in declaration order. -/
def EU_AI_ROLE_KEYWORDS : RoleKeywordMap where
  en :=
    [("provider", ["provider", "supplier", "manufacturer", "developer", "downstream provider"]),
     ("deployer", ["deployer", "operator", "user in own authority", "integrator"]),
     ("authorised_representative", ["authorised representative"]),
     ("importer", ["importer"]),
     ("distributor", ["distributor", "reseller"]),
     ("operator",
      ["operator", "actor", "provider", "manufacturer", "deployer",
       "authorised representative", "importer", "distributor"]),
     ("notified_body", ["notified body", "conformity assessment body"]),
     ("regulator",
      ["AI Office", "national competent authority", "market surveillance authority",
       "notifying authority", "law enforcement authority"]),
     ("sponsor", ["sponsor", "clinical sponsor"])]
  fr :=
    [("provider", ["fournisseur", "fabricant", "prestataire", "fournisseur en aval"]),
     ("deployer", ["déployeur", "opérateur", "utilisateur en propre", "intégrateur"]),
     ("authorised_representative", ["mandataire"]),
     ("importer", ["importateur"]),
     ("distributor", ["distributeur"]),
     ("operator",
      ["opérateur", "acteur", "fournisseur", "fabricant", "déployeur", "mandataire",
       "importateur", "distributeur"]),
     ("notified_body", ["organisme notifié", "organisme d'évaluation de la conformité"]),
     ("regulator",
      ["Bureau de l'IA", "autorite nationale competente", "autorite de surveillance du marche",
       "autorite notifiante", "autorites repressives"]),
     ("sponsor", ["sponsor", "sponsor clinique"])]
  de :=
    [("provider", ["anbieter", "hersteller", "lieferant", "nachgelagerter anbieter"]),
     ("deployer", ["betreiber", "nutzer in eigener verantwortung", "integrator"]),
     ("authorised_representative", ["bevollmaechtigter"]),
     ("importer", ["einfuehrer"]),
     ("distributor", ["haendler"]),
     ("operator",
      ["betreiber", "akteur", "anbieter", "hersteller", "bevollmaechtigter", "einfuehrer",
       "haendler"]),
     ("notified_body", ["notifizierte stelle", "konformitaetsbewertungsstelle"]),
     ("regulator",
      ["Buro fuer Kuenstliche Intelligenz", "zustaendige nationale Behoerde",
       "marktueberwachungsbehoerde", "notifizierende Behoerde", "Strafverfolgungsbehoerde"]),
     ("sponsor", ["sponsor", "klinischer sponsor"])]

/-- MDR_ROLE_KEYWORDS from actor_roles.py, in declaration order. -/
def MDR_ROLE_KEYWORDS : RoleKeywordMap where
  en :=
    [("manufacturer", ["manufacturer", "legal manufacturer"]),
     ("authorised_representative", ["authorised representative"]),
     ("importer", ["importer"]),
     ("distributor", ["distributor", "economic operator"]),
     ("notified_body", ["notified body"]),
     ("conformity_assessment_body", ["conformity assessment body"]),
     ("sponsor", ["sponsor", "clinical sponsor"]),
     ("investigator", ["investigator"]),
     ("ethics_committee", ["ethics committee"]),
     ("health_institution", ["health institution", "hospital"]),
     ("user", ["user", "professional user", "healthcare professional"]),
     ("lay_person", ["lay person", "lay user"]),
     ("market_surveillance_authority", ["market surveillance authority"]),
     ("competent_authority", ["competent authority"])]
  fr :=
    [("manufacturer", ["fabricant"]),
     ("authorised_representative", ["mandataire"]),
     ("importer", ["importateur"]),
     ("distributor", ["distributeur", "operateur economique"]),
     ("notified_body", ["organisme notifie"]),
     ("conformity_assessment_body", ["organisme d'evaluation de la conformite"]),
     ("sponsor", ["sponsor", "promoteur"]),
     ("investigator", ["investigateur"]),
     ("ethics_committee", ["comite d'ethique"]),
     ("health_institution", ["etablissement de sante"]),
     ("user", ["utilisateur", "professionnel de sante"]),
     ("lay_person", ["profane"]),
     ("market_surveillance_authority", ["autorite de surveillance du marche"]),
     ("competent_authority", ["autorite competente"])]
  de :=
    [("manufacturer", ["hersteller"]),
     ("authorised_representative", ["bevollmaechtigter"]),
     ("importer", ["einfuehrer"]),
     ("distributor", ["haendler", "wirtschaftsakteur"]),
     ("notified_body", ["benannte stelle"]),
     ("conformity_assessment_body", ["konformitaetsbewertungsstelle"]),
     ("sponsor", ["sponsor"]),
     ("investigator", ["pruefer"]),
     ("ethics_committee", ["ethik-kommission"]),
     ("health_institution", ["gesundheitseinrichtung"]),
     ("user", ["anwender", "gesundheitsfachkraft"]),
     ("lay_person", ["laie"]),
     ("market_surveillance_authority", ["marktueberwachungsbehoerde"]),
     ("competent_authority", ["zustaendige behoerde"])]

/-- detect_roles_from_keywords from actor_roles.py: the roles whose
keyword list has a match in the text, in vocabulary declaration
order. -/
def detect_roles_from_keywords (text lang : String) (m : RoleKeywordMap) : List String :=
  let patterns := roleMapGet m (pyUpper (if lang == "" then "EN" else lang))
  patterns.filterMap
    (fun rk => if rk.2.any (fun pat => roleSearch pat text) then some rk.1 else none)

/-- eu_ai_role_detector from actor_roles.py. -/
def eu_ai_role_detector (text lang : String) : List String :=
  detect_roles_from_keywords text lang EU_AI_ROLE_KEYWORDS

/-- mdr_role_detector from actor_roles.py. -/
def mdr_role_detector (text lang : String) : List String :=
  detect_roles_from_keywords text lang MDR_ROLE_KEYWORDS

/-- REGULATIONS from regulations_catalog.py, projected to the type
field. -/
def regulationTypeGet (celex : String) : Option String :=
  if celex == "32017R0745" then some "medical_device_regulation"
  else if celex == "32024R1689" then some "ai_regulation"
  else none

/-- REGULATIONS from regulations_catalog.py, projected to the name
field. -/
def regulationNameGet (celex : String) : Option String :=
  if celex == "32017R0745" then some "MDR 2017/745"
  else if celex == "32024R1689" then some "EU AI Act"
  else none

/-- Plain case-insensitive substring search, as re.search of a literal
word with no anchors (the topical obligation_type cues). -/
def substrSearch (phrase : List Char) : List Char → Bool
  | [] => (matchCI phrase []).isSome
  | c :: cs => (matchCI phrase (c :: cs)).isSome || substrSearch phrase cs

/-- Case-insensitive substring search on strings. -/
def substrCI (phrase text : String) : Bool :=
  substrSearch (phrase.data.map lc) text.data

/-- The legacy obligation cue patterns of canonicalization/semantics.py. -/
def obligationLegacyPatterns : List Pat :=
  [Pat.word "shall" false, Pat.word "must" false, Pat.word "are required to" false,
   Pat.word "is required to" false, Pat.word "responsible for" false,
   Pat.word "ensure" false, Pat.word "prohibited" false, Pat.word "not permitted" false]

/-- The record returned by enrich_semantics. -/
structure SemanticEnrichment where
  is_obligation : Bool
  obligation_type : Option String
  roles : List String
  semantic_role : Option String
deriving DecidableEq, Repr

/-- enrich_semantics from canonicalization/semantics.py.  The kind
argument is accepted and unused, as in the source.  The requirement
classifier it imports from the semantic_layer package carries the same
pattern table as base/requirement_patterns.py and is embedded once
above. -/
def enrich_semantics (text kind celex lang : String) : SemanticEnrichment :=
  let text_clean := text
  let lang_norm := pyUpper (if lang == "" then "EN" else lang)
  let requirement_type := classify_requirement_type text_clean lang_norm
  let has_requirement := requirement_type ≠ "other"
  let legacy_obligation := obligationLegacyPatterns.any (fun p => p.matches text_clean)
  let is_obligation :=
    if has_requirement then
      decide (requirement_type ∈ ["obligation", "prohibition", "permission"])
    else legacy_obligation
  let reg_type := regulationTypeGet celex
  let detected_roles :=
    if reg_type == some "medical_device_regulation" then mdr_role_detector text_clean lang
    else if reg_type == some "ai_regulation" then eu_ai_role_detector text_clean lang
    else []
  let obligation_type :=
    if is_obligation then
      if substrCI "vigilance" text_clean then some "vigilance"
      else if substrCI "post-market surveillance" text_clean then some "post_market_surveillance"
      else if substrCI "classification" text_clean then some "classification_rule"
      else if substrCI "risk management" text_clean then some "risk_management"
      else if substrCI "conformity assessment" text_clean then some "conformity_assessment"
      else if substrCI "clinical investigation" text_clean then some "clinical_investigation"
      else if has_requirement &&
          decide (requirement_type ∈ ["obligation", "prohibition", "permission", "definition"]) then
        some requirement_type
      else some "general_obligation"
    else none
  let semantic_role := detected_roles.head?
  { is_obligation := is_obligation
    obligation_type := obligation_type
    roles := detected_roles
    semantic_role := semantic_role }

/-- A provision record as assembled by build_provision_record.  The
provenance, snippet, context metadata and canonical tag fields of the
source record are derived from raw HTML input or from the fields kept
here and are outside the embedding. -/
structure Provision where
  id : String
  parent_id : Option String
  level : String
  kind : String
  item_number : Option String
  lang : String
  celex : String
  regulation_id : String
  source : String
  title : Option String
  text : String
  intro_text : String
  path : List String
  path_string : String
  depth : Nat
  canonical_id : String
  is_requirement : Bool
  requirement_type : String
  roles : List String
  references : List String
deriving DecidableEq, Repr, Inhabited

/-- ParserConfig from base/parser_core.py, with the fields the embedded
logic reads. -/
structure ParserConfig where
  celex_id : String
  source_name : String
  regulation_id : String
  parser_name : String
  parser_version : String := "0.2"
  level_normalization : List (String × String)
  context_levels : List String
  non_requirement_levels : List String
  reference_excluded_levels : List String
  path_skip_levels : List String := ["title"]
  role_detector : String → String → List String

/-- canonicalize_numbered_level from parser_core.py: remap ad-hoc
numbering levels through the config's normalization dict. -/
def canonicalize_numbered_level (level : Option String) (config : ParserConfig) :
    Option String :=
  match level with
  | none => none
  | some l => some (((config.level_normalization.find? (fun kv => kv.1 == l)).map
      (fun kv => kv.2)).getD l)

/-- make_provision_id from parser_core.py. -/
def make_provision_id (config : ParserConfig) (parent_id : Option String) (level : String)
    (marker : Option String) (lang : String) : String :=
  let marker_token := underscoreSpaces (marker.getD "UNNUMBERED")
  match parent_id with
  | some pid => pid ++ "_" ++ level ++ "_" ++ marker_token
  | none => config.celex_id ++ "_" ++ lang ++ "_" ++ level ++ "_" ++ marker_token

/-- make_path_segment from parser_core.py. -/
def make_path_segment (level : String) (marker : Option String) : Option String :=
  if level == "" then none
  else
    match marker with
    | none => some (pyUpper level)
    | some m => some (pyUpper level ++ "_" ++ pyUpper (underscoreSpaces m))

/-- build_path from parser_core.py: ancestor segments bottom-up with
the skip levels removed, then the node's own segment. -/
def build_path (ancestors : List Provision) (level : String) (marker : Option String)
    (path_skip_levels : List String) : List String :=
  let segments := ancestors.filterMap
    (fun a =>
      if path_skip_levels.contains a.level then none
      else make_path_segment a.level a.item_number)
  segments ++
    (match make_path_segment level marker with
     | some seg => [seg]
     | none => [])

/-- The triple of requirement fields computed at node creation. -/
structure ReqFields where
  is_requirement : Bool
  requirement_type : String
  roles : List String

/-- The private requirement-field helper of parser_core.py: excluded
levels get the fixed defaults without running any pattern, all other
levels run the requirement classifiers and the config's role
detector. -/
def computeRequirementFields (config : ParserConfig) (level text lang : String) : ReqFields :=
  if config.non_requirement_levels.contains level then
    ⟨false, "other", []⟩
  else
    ⟨is_requirement_text text lang, classify_requirement_type text lang,
      config.role_detector text lang⟩

/-- The private reference helper of parser_core.py. -/
def computeReferences (config : ParserConfig) (level text lang : String) : List String :=
  if config.reference_excluded_levels.contains level then []
  else extract_references text lang

/-- build_provision_record from parser_core.py, on the popped ancestor
stack; both parsers pass the body as text_for_analysis and leave
references_text defaulted to it. -/
def build_provision_record (config : ParserConfig) (ancestors : List Provision)
    (level : String) (marker : Option String) (lang : String) (title : Option String)
    (text intro_text : String) (parent_id : Option String) (text_for_analysis : String) :
    Provision :=
  let references_text := text_for_analysis
  let provision_id := make_provision_id config parent_id level marker lang
  let path := build_path ancestors level marker config.path_skip_levels
  let req := computeRequirementFields config level text_for_analysis lang
  let references := computeReferences config level references_text lang
  { id := provision_id
    parent_id := parent_id
    level := level
    kind := level
    item_number := marker
    lang := lang
    celex := config.celex_id
    regulation_id := config.regulation_id
    source := config.source_name
    title := title
    text := text
    intro_text := intro_text
    path := path
    path_string := String.mk (joinWith '/' (path.map String.data))
    depth := path.length
    canonical_id := provision_id
    is_requirement := req.is_requirement
    requirement_type := req.requirement_type
    roles := req.roles
    references := references }

/-- A relation dict as produced by flatten_relations. -/
structure RelationObj where
  source : String
  type : String
  target : String
deriving DecidableEq, Repr

/-- flatten_relations from parser_core.py. -/
def flatten_relations (relations : List (String × String × String)) : List RelationObj :=
  relations.map (fun r => ⟨r.1, r.2.1, r.2.2⟩)

/-- The shared LEVEL_NORMALIZATION map of eu_ai_parser.py and
mdr_parser.py. -/
def SHARED_LEVEL_NORMALIZATION : List (String × String) :=
  [("section", "paragraph"), ("subsection", "paragraph"), ("point", "letter")]

/-- CONFIG from eu_ai_parser.py.  Note that article is absent from its
non_requirement_levels and that reference_excluded_levels is empty. -/
def CONFIG_EU_AI : ParserConfig where
  celex_id := "32024R1689"
  source_name := "EU_AI_ACT_2024"
  regulation_id := "EU AI Act"
  parser_name := "eu_ai_parser.parse_eu_ai_act"
  level_normalization := SHARED_LEVEL_NORMALIZATION
  context_levels := ["title", "chapter", "section", "article"]
  non_requirement_levels := ["title", "chapter", "section", "annex", "recital"]
  reference_excluded_levels := []
  path_skip_levels := ["title"]
  role_detector := eu_ai_role_detector

/-- CONFIG from mdr_parser.py.  Note that recital is absent from its
non_requirement_levels. -/
def CONFIG_MDR : ParserConfig where
  celex_id := "32017R0745"
  source_name := "MDR_2017_745"
  regulation_id := "MDR 2017/745"
  parser_name := "mdr_parser.parse_mdr"
  level_normalization := SHARED_LEVEL_NORMALIZATION
  context_levels := ["title", "chapter", "section", "article", "annex"]
  non_requirement_levels := ["title", "chapter", "section", "article", "annex"]
  reference_excluded_levels := ["title", "chapter", "section", "article", "annex"]
  path_skip_levels := ["title"]
  role_detector := mdr_role_detector

/-- The punctuation class [:\-.–—] of the heading marker patterns. -/
def isPunctSep (c : Char) : Bool :=
  c == ':' || c == '-' || c == '.' || c == '–' || c == '—'

/-- Match of kw\s*[:\-.–—]?\s*(run) at one position: the keyword
case-insensitively, optional whitespace, an optional separator with
more optional whitespace, then a maximal non-empty run of the class
followed by a word boundary.  The separator and numeral classes are
disjoint, so the optional parts are deterministic. -/
def kwPunctNumAt (kw : List Char) (cls : Char → Bool) (s : List Char) :
    Option (List Char) :=
  match matchCI kw s with
  | some rest =>
    let r1 := rest.dropWhile isWs
    let r2 :=
      match r1 with
      | c :: cs => if isPunctSep c then cs.dropWhile isWs else r1
      | [] => r1
    let run := r2.takeWhile cls
    if run.isEmpty then none
    else if tailOk false (r2.dropWhile cls) then some run
    else none
  | none => none

/-- Left-to-right scan of re.search for the kw-separator-numeral marker
patterns. -/
def scanKwPunctNum (kw : List Char) (cls : Char → Bool) : List Char → Option String
  | [] =>
    match kwPunctNumAt kw cls [] with
    | some run => some (String.mk run)
    | none => none
  | c :: cs =>
    match kwPunctNumAt kw cls (c :: cs) with
    | some run => some (String.mk run)
    | none => scanKwPunctNum kw cls cs

/-- re.search of kw\s*[:\-.–—]?\s*(cls+)\b under re.I, returning the
captured numeral. -/
def searchKwPunctNum (kw : String) (cls : Char → Bool) (text : String) : Option String :=
  scanKwPunctNum (kw.data.map lc) cls text.data

/-- Like searchKwPunctNum with the alternation ([IVXLCDM]+|\d+)\b of
the section heading, Roman tried before Arabic at each position. -/
def kwPunctNumAltAt (kw : List Char) (s : List Char) : Option (List Char) :=
  match kwPunctNumAt kw isRomanCI s with
  | some run => some run
  | none => kwPunctNumAt kw Char.isDigit s

/-- Scan for the section heading marker pattern. -/
def scanKwPunctNumAlt (kw : List Char) : List Char → Option String
  | [] =>
    match kwPunctNumAltAt kw [] with
    | some run => some (String.mk run)
    | none => none
  | c :: cs =>
    match kwPunctNumAltAt kw (c :: cs) with
    | some run => some (String.mk run)
    | none => scanKwPunctNumAlt kw cs

/-- re.search of kw\s*[:\-.–—]?\s*([IVXLCDM]+|\d+)\b under re.I. -/
def searchKwPunctNumAlt (kw : String) (text : String) : Option String :=
  scanKwPunctNumAlt (kw.data.map lc) text.data

/-- Scan of re.search for a word-bounded run \b(cls+)\b; a failed
boundary at a maximal run cannot be rescued inside the run because both
sides of any interior split are word characters. -/
def scanBoundedRun (cls : Char → Bool) : Option Char → List Char → Option String
  | _, [] => none
  | prev, c :: cs =>
    if prevOk prev && cls c &&
        tailOk false ((c :: cs).dropWhile cls) then
      some (String.mk ((c :: cs).takeWhile cls))
    else scanBoundedRun cls (some c) cs

/-- re.search of \b(cls+)\b, returning the first captured run. -/
def searchBoundedRun (cls : Char → Bool) (text : String) : Option String :=
  scanBoundedRun cls none text.data

/-- Scan for the section fallback \b([IVXLCDM]+|\d+)\b. -/
def scanBoundedRunAlt : Option Char → List Char → Option String
  | _, [] => none
  | prev, c :: cs =>
    if prevOk prev && isRomanCI c &&
        tailOk false ((c :: cs).dropWhile isRomanCI) then
      some (String.mk ((c :: cs).takeWhile isRomanCI))
    else if prevOk prev && c.isDigit &&
        tailOk false ((c :: cs).dropWhile Char.isDigit) then
      some (String.mk ((c :: cs).takeWhile Char.isDigit))
    else scanBoundedRunAlt (some c) cs

/-- re.search of \b([IVXLCDM]+|\d+)\b under re.I. -/
def searchBoundedRunAlt (text : String) : Option String :=
  scanBoundedRunAlt none text.data

/-- Python str.strip on the whitespace class in scope. -/
def pyStrip (s : String) : String :=
  String.mk (((s.data.dropWhile isWs).reverse.dropWhile isWs).reverse)

/-- The anchored article heading match ^kw\s*[:\-.–—]?\s*(\d+)\b\s*(.*)$
under re.I, returning the marker and the remainder after the
whitespace. -/
def matchArticleHeading (kw : String) (text : String) : Option (String × String) :=
  match matchCI (kw.data.map lc) text.data with
  | some rest =>
    let r1 := rest.dropWhile isWs
    let r2 :=
      match r1 with
      | c :: cs => if isPunctSep c then cs.dropWhile isWs else r1
      | [] => r1
    let run := r2.takeWhile Char.isDigit
    if run.isEmpty then none
    else
      let after := r2.dropWhile Char.isDigit
      if tailOk false after then some (String.mk run, String.mk (after.dropWhile isWs))
      else none
  | none => none

/-- The shared heading branch of parse_eu_ai_act and parse_mdr: from a
heading block type and the normalized text, the level, marker, title
and intro_text the source assigns; none for non-heading block types. -/
def headingFields (keywords : Keywords) (block_type text : String) :
    Option (String × Option String × Option String × String) :=
  if block_type == "title" then
    let m :=
      match searchKwPunctNum keywords.title isRomanCI text with
      | some run => some run
      | none => searchBoundedRun isRomanCI text
    some ("title", some (m.getD "TITLE"), some text, "")
  else if block_type == "chapter_title" then
    let m :=
      match searchKwPunctNum keywords.chapter isRomanCI text with
      | some run => some run
      | none => searchBoundedRun isRomanCI text
    some ("chapter", some (m.getD "CHAPTER"), some text, "")
  else if block_type == "section_title" then
    let m :=
      match searchKwPunctNumAlt keywords.sectionKw text with
      | some run => some run
      | none => searchBoundedRunAlt text
    some ("section", some (m.getD "SECTION"), some text, "")
  else if block_type == "article_title" then
    match matchArticleHeading keywords.article text with
    | some (marker, rest) =>
      let short_title := pyStrip rest
      some ("article", some marker, some (keywords.article ++ " " ++ marker),
        if short_title ≠ "" then short_title else "")
    | none =>
      let m2 := searchBoundedRun Char.isDigit text
      some ("article", some (m2.getD "ARTICLE"), some text, "")
  else if block_type == "annex_title" then
    let m :=
      match searchKwPunctNum keywords.annex isRomanCI text with
      | some run => some run
      | none => searchBoundedRun isRomanCI text
    some ("annex", some (m.getD keywords.annex), some text, "")
  else none

/-- Python str.isdigit on the strings in scope. -/
def isDigits (s : String) : Bool :=
  !s.data.isEmpty && s.data.all Char.isDigit

/-- Numeric value of an all-digit marker, as int() reads it. -/
def digitsToNat (s : String) : Nat :=
  s.data.foldl (fun acc c => acc * 10 + (c.toNat - 48)) 0

/-- The recital prefix test ^(Whereas|Considérant|Erwägungsgrund) under
re.I. -/
def whereasStart (text : String) : Bool :=
  (matchCI "whereas".data text.data).isSome ||
    (matchCI "considérant".data text.data).isSome ||
    (matchCI "erwägungsgrund".data text.data).isSome

/-- Total lookup of a provision by list index; the loops only use
indices of already-created provisions. -/
def provAt (provs : List Provision) (i : Nat) : Provision :=
  (provs.get? i).getD default

/-- The Python ancestor stack, bottom-first, recovered from the index
stack whose head is the top. -/
def stackProvisions (provs : List Provision) (stack : List Nat) : List Provision :=
  stack.reverse.map (provAt provs)

/-- Appending an absorbed text onto the open node's intro_text, as the
shared dict mutation of both parser loops. -/
def absorbIntro (provs : List Provision) (i : Nat) (text : String) : List Provision :=
  match provs.get? i with
  | some p => provs.set i { p with intro_text := pyStrip (p.intro_text ++ " " ++ text) }
  | none => provs

/-- The loop state of parse_eu_ai_act; the stack holds indices into the
provision list because the Python stack aliases the emitted dicts. -/
structure EuState where
  provisions : List Provision
  relations : List (String × String × String)
  stack : List Nat
  recital_counter : Nat
  in_preamble : Bool

/-- The state before the first block. -/
def initialEuState : EuState :=
  ⟨[], [], [], 0, true⟩

/-- The pop condition of parse_eu_ai_act: rank at least the incoming
rank, or a recital on top, which always yields. -/
def euPopCond (provs : List Provision) (cur : Nat) (i : Nat) : Bool :=
  decide (cur ≤ levelRank (provAt provs i).level) || (provAt provs i).level == "recital"

/-- Emitting one provision in parse_eu_ai_act: pop the stack, pick the
parent, assemble the record, record the edges and push. -/
def euEmit (lang : String) (st : EuState) (level : String) (marker : Option String)
    (title : Option String) (intro body : String) : EuState :=
  let cur := levelRank level
  let stack1 := st.stack.dropWhile (euPopCond st.provisions cur)
  let parent_id := stack1.head?.map (fun j => (provAt st.provisions j).id)
  let provision := build_provision_record CONFIG_EU_AI
    (stackProvisions st.provisions stack1) level marker lang title body intro parent_id body
  let rels1 :=
    match parent_id with
    | some pid => st.relations ++ [(pid, "HAS_CHILD", provision.id)]
    | none => st.relations
  let rels2 := rels1 ++ provision.references.map (fun r => (provision.id, "REFERENCES", r))
  { st with
    provisions := st.provisions ++ [provision]
    relations := rels2
    stack := st.provisions.length :: stack1 }

/-- The non-heading path of parse_eu_ai_act: numbering detection, the
in-preamble recital reinterpretation, the Whereas cue, and absorption
of unclassifiable text. -/
def euNumbered (lang : String) (st : EuState) (text : String) : EuState :=
  let dn := detect_numbering text
  let body := if dn.2.2 ≠ "" then dn.2.2 else text
  let level1 := canonicalize_numbered_level dn.1 CONFIG_EU_AI
  if level1 == some "paragraph" && st.in_preamble && st.stack.isEmpty then
    match dn.2.1 with
    | some m =>
      if isDigits m then
        euEmit lang { st with recital_counter := max st.recital_counter (digitsToNat m) }
          "recital" (some m) (some text) "" body
      else
        euEmit lang { st with recital_counter := st.recital_counter + 1 }
          "recital" (some m) (some text) "" body
    | none =>
      let rc := st.recital_counter + 1
      euEmit lang { st with recital_counter := rc } "recital"
        (some ("PREAMBLE_" ++ toString rc)) (some text) "" body
  else
    match level1 with
    | some lvl => euEmit lang st lvl dn.2.1 none "" body
    | none =>
      if whereasStart text then
        match searchBoundedRun Char.isDigit text with
        | some d =>
          euEmit lang { st with recital_counter := max st.recital_counter (digitsToNat d) }
            "recital" (some d) (some text) "" body
        | none =>
          let rc := st.recital_counter + 1
          euEmit lang { st with recital_counter := rc } "recital"
            (some ("PREAMBLE_" ++ toString rc)) (some text) "" body
      else
        match st.stack with
        | [] => st
        | top :: _ => { st with provisions := absorbIntro st.provisions top text }

/-- One block of the parse_eu_ai_act loop. -/
def euStep (lang : String) (st : EuState) (tag : String × String) : EuState :=
  match classify_block tag.1 tag.2 lang with
  | none => st
  | some block =>
    let text := normalize_text block.text
    if text == "" then st
    else
      match headingFields (langKeywordsGet lang) block.type text with
      | some (level, marker, title, intro) =>
        let in_pre :=
          if ["title", "chapter", "section", "article", "annex"].contains level then false
          else st.in_preamble
        euEmit lang { st with in_preamble := in_pre } level marker title intro text
      | none => euNumbered lang st text

/-- parse_eu_ai_act from eu_ai_parser.py, on the classified text blocks
of the document in order. -/
def parse_eu_ai_act (blocks : List (String × String)) (lang : String := "EN") :
    List Provision × List RelationObj :=
  let langU := pyUpper lang
  let final := blocks.foldl (euStep langU) initialEuState
  (final.provisions, flatten_relations final.relations)

/-- The loop state of parse_mdr. -/
structure MdrState where
  provisions : List Provision
  relations : List (String × String × String)
  stack : List Nat

/-- The state before the first block of parse_mdr. -/
def initialMdrState : MdrState :=
  ⟨[], [], []⟩

/-- The pop condition of parse_mdr: plain rank comparison, with no
recital clause. -/
def mdrPopCond (provs : List Provision) (cur : Nat) (i : Nat) : Bool :=
  decide (cur ≤ levelRank (provAt provs i).level)

/-- Emitting one provision in parse_mdr; container levels store the
full text, requirement levels the numbering-stripped body. -/
def mdrEmit (lang : String) (st : MdrState) (level : String) (marker : Option String)
    (title : Option String) (intro body text : String) : MdrState :=
  let cur := levelRank level
  let stack1 := st.stack.dropWhile (mdrPopCond st.provisions cur)
  let parent_id := stack1.head?.map (fun j => (provAt st.provisions j).id)
  let stored_text := if CONFIG_MDR.non_requirement_levels.contains level then text else body
  let provision := build_provision_record CONFIG_MDR
    (stackProvisions st.provisions stack1) level marker lang title stored_text intro parent_id
    body
  let rels1 :=
    match parent_id with
    | some pid => st.relations ++ [(pid, "HAS_CHILD", provision.id)]
    | none => st.relations
  let rels2 := rels1 ++ provision.references.map (fun r => (provision.id, "REFERENCES", r))
  { st with
    provisions := st.provisions ++ [provision]
    relations := rels2
    stack := st.provisions.length :: stack1 }

/-- One block of the parse_mdr loop. -/
def mdrStep (lang : String) (st : MdrState) (tag : String × String) : MdrState :=
  match classify_block tag.1 tag.2 lang with
  | none => st
  | some block =>
    let text := normalize_text block.text
    if text == "" then st
    else
      match headingFields (langKeywordsGet lang) block.type text with
      | some (level, marker, title, intro) => mdrEmit lang st level marker title intro text text
      | none =>
        let dn := detect_numbering text
        let body := if dn.2.2 ≠ "" then dn.2.2 else text
        match canonicalize_numbered_level dn.1 CONFIG_MDR with
        | some lvl => mdrEmit lang st lvl dn.2.1 none "" body text
        | none =>
          match st.stack with
          | [] => st
          | top :: _ => { st with provisions := absorbIntro st.provisions top text }

/-- parse_mdr from mdr_parser.py. -/
def parse_mdr (blocks : List (String × String)) (lang : String := "EN") :
    List Provision × List RelationObj :=
  let langU := pyUpper (if lang == "" then "EN" else lang)
  let final := blocks.foldl (mdrStep langU) initialMdrState
  (final.provisions, flatten_relations final.relations)

/-- The HAS_CHILD edge a provision contributes, when it has a parent. -/
def hcEdge (p : Provision) : Option (String × String × String) :=
  p.parent_id.map (fun pid => (pid, "HAS_CHILD", p.id))

/-- Every stack index points at an already-created provision. -/
def StackOk (provs : List Provision) (stack : List Nat) : Prop :=
  ∀ i ∈ stack, i < provs.length

/-- Every non-root provision has an earlier provision with its
parent_id as id, and that witness is never a recital. -/
def ParentOk (provs : List Provision) : Prop :=
  ∀ k p, provs.get? k = some p → ∀ pid, p.parent_id = some pid →
    ∃ j q, j < k ∧ provs.get? j = some q ∧ q.id = pid ∧ q.level ≠ "recital"

/-- The HAS_CHILD relations are exactly the per-provision edges, in
creation order. -/
def ChildOk (provs : List Provision) (rels : List (String × String × String)) : Prop :=
  rels.filter (fun r => r.2.1 == "HAS_CHILD") = provs.filterMap hcEdge

/-- Provisions whose level is excluded from requirement classification
carry the fixed defaults. -/
def NonReqOk (cfg : ParserConfig) (provs : List Provision) : Prop :=
  ∀ p ∈ provs, cfg.non_requirement_levels.contains p.level →
    p.is_requirement = false ∧ p.requirement_type = "other" ∧ p.roles = []

/-- The loop invariant shared by the claims about the eu loop. -/
def LoopInv (cfg : ParserConfig) (provs : List Provision)
    (rels : List (String × String × String)) (stack : List Nat) : Prop :=
  StackOk provs stack ∧ ParentOk provs ∧ ChildOk provs rels ∧ NonReqOk cfg provs

/-- The eu loop invariant on a state. -/
def EuInv (st : EuState) : Prop :=
  LoopInv CONFIG_EU_AI st.provisions st.relations st.stack

/-- The mdr loop invariant: only the requirement-field default clause
is needed by the claims. -/
def MdrInv (st : MdrState) : Prop :=
  NonReqOk CONFIG_MDR st.provisions

theorem foldlPreserves {σ α : Type} (P : σ → Prop) (f : σ → α → σ)
    (hstep : ∀ s a, P s → P (f s a)) :
    ∀ (l : List α) (s : σ), P s → P (l.foldl f s)
  | [], _, h => h
  | a :: l, s, h => foldlPreserves P f hstep l (f s a) (hstep s a h)

theorem dropWhile_head?_false {α : Type} (p : α → Bool) :
    ∀ (l : List α) (a : α), (l.dropWhile p).head? = some a → p a = false := by
  intro l
  induction l with
  | nil => intro a h; simp [List.dropWhile] at h
  | cons b t ih =>
    intro a h
    rw [List.dropWhile_cons] at h
    cases hb : p b with
    | true => rw [hb] at h; simp at h; exact ih a h
    | false => rw [hb] at h; simp at h; rw [← h]; exact hb

theorem dropWhile_mem {α : Type} (p : α → Bool) :
    ∀ (l : List α) (a : α), a ∈ l.dropWhile p → a ∈ l := by
  intro l
  induction l with
  | nil => intro a h; simp [List.dropWhile] at h
  | cons b t ih =>
    intro a h
    rw [List.dropWhile_cons] at h
    by_cases hb : p b = true
    · simp [hb] at h; exact List.mem_cons_of_mem b (ih a h)
    · simp [hb] at h; exact List.mem_cons.mpr h

theorem get?_set_split {α : Type} :
    ∀ (l : List α) (i j : Nat) (x : α),
      (l.set i x).get? j = if i = j then (l.get? j).map (fun _ => x) else l.get? j := by
  intro l
  induction l with
  | nil => intro i j x; simp
  | cons a t ih =>
    intro i j x
    cases i with
    | zero =>
      cases j with
      | zero => simp
      | succ j => simp
    | succ i =>
      cases j with
      | zero => simp
      | succ j =>
        simp only [List.set, List.get?]
        rw [ih i j x]
        by_cases hij : i = j
        · simp [hij]
        · simp [hij, fun h => hij (Nat.succ_injective h)]

theorem filterMap_set_congr {α β : Type} (f : α → Option β) :
    ∀ (l : List α) (i : Nat) (x : α),
      (∀ y, l.get? i = some y → f x = f y) →
      (l.set i x).filterMap f = l.filterMap f := by
  intro l
  induction l with
  | nil => intro i x _; simp
  | cons a t ih =>
    intro i x h
    cases i with
    | zero =>
      have : f x = f a := h a rfl
      simp [List.set, List.filterMap_cons, this]
    | succ i =>
      simp only [List.set, List.filterMap_cons]
      rw [ih i x (fun y hy => h y hy)]

theorem head?_mem {α : Type} (l : List α) (a : α) (h : l.head? = some a) : a ∈ l := by
  cases l with
  | nil => simp at h
  | cons b t => simp at h; simp [h]

theorem filter_hc_refs (idStr : String) (refs : List String) :
    (refs.map (fun r => (idStr, "REFERENCES", r))).filter
      (fun t => t.2.1 == "HAS_CHILD") = [] := by
  induction refs with
  | nil => rfl
  | cons r t ih => simp [ih]

/-- Projection of build_provision_record to its parent. -/
theorem build_record_parent_id (cfg : ParserConfig) (anc : List Provision) (level : String)
    (marker : Option String) (lang : String) (title : Option String) (text intro : String)
    (pid : Option String) (tfa : String) :
    (build_provision_record cfg anc level marker lang title text intro pid tfa).parent_id
      = pid := rfl

/-- Projection of build_provision_record to its level. -/
theorem build_record_level (cfg : ParserConfig) (anc : List Provision) (level : String)
    (marker : Option String) (lang : String) (title : Option String) (text intro : String)
    (pid : Option String) (tfa : String) :
    (build_provision_record cfg anc level marker lang title text intro pid tfa).level
      = level := rfl

/-- Projection of build_provision_record to its requirement flag. -/
theorem build_record_is_requirement (cfg : ParserConfig) (anc : List Provision)
    (level : String) (marker : Option String) (lang : String) (title : Option String)
    (text intro : String) (pid : Option String) (tfa : String) :
    (build_provision_record cfg anc level marker lang title text intro pid tfa).is_requirement
      = (computeRequirementFields cfg level tfa lang).is_requirement := rfl

/-- Projection of build_provision_record to its requirement type. -/
theorem build_record_requirement_type (cfg : ParserConfig) (anc : List Provision)
    (level : String) (marker : Option String) (lang : String) (title : Option String)
    (text intro : String) (pid : Option String) (tfa : String) :
    (build_provision_record cfg anc level marker lang title text intro pid tfa).requirement_type
      = (computeRequirementFields cfg level tfa lang).requirement_type := rfl

/-- Projection of build_provision_record to its roles. -/
theorem build_record_roles (cfg : ParserConfig) (anc : List Provision)
    (level : String) (marker : Option String) (lang : String) (title : Option String)
    (text intro : String) (pid : Option String) (tfa : String) :
    (build_provision_record cfg anc level marker lang title text intro pid tfa).roles
      = (computeRequirementFields cfg level tfa lang).roles := rfl

theorem emit_core_preserves (cfg : ParserConfig) (provs : List Provision)
    (rels : List (String × String × String)) (stack stack1 : List Nat) (prov : Provision)
    (refs : List (String × String × String))
    (hsub : ∀ i ∈ stack1, i ∈ stack)
    (hpar : prov.parent_id = stack1.head?.map (fun j => (provAt provs j).id))
    (hparlev : ∀ j, stack1.head? = some j → (provAt provs j).level ≠ "recital")
    (hreq : cfg.non_requirement_levels.contains prov.level →
      prov.is_requirement = false ∧ prov.requirement_type = "other" ∧ prov.roles = [])
    (hrefs : refs.filter (fun t => t.2.1 == "HAS_CHILD") = [])
    (hinv : LoopInv cfg provs rels stack) :
    LoopInv cfg (provs ++ [prov])
      ((match prov.parent_id with
        | some pid => rels ++ [(pid, "HAS_CHILD", prov.id)]
        | none => rels) ++ refs)
      (provs.length :: stack1) := by
  obtain ⟨hstack, hparok, hchild, hnr⟩ := hinv
  refine ⟨?_, ?_, ?_, ?_⟩
  · intro i hi
    rw [List.length_append, List.length_singleton]
    rcases List.mem_cons.mp hi with h | h
    · omega
    · exact Nat.lt_succ_of_lt (hstack i (hsub i h))
  · intro k p hk pid hpid
    by_cases hklen : k < provs.length
    · rw [List.get?_append hklen] at hk
      obtain ⟨j, q, hj, hq, hqid, hqlev⟩ := hparok k p hk pid hpid
      refine ⟨j, q, hj, ?_, hqid, hqlev⟩
      rw [List.get?_append (lt_trans hj hklen)]
      exact hq
    · rcases Nat.eq_or_lt_of_le (Nat.le_of_not_lt hklen) with heq | hlt
      · subst heq
        rw [List.get?_concat_length] at hk
        obtain rfl : prov = p := by injection hk
        rw [hpar] at hpid
        obtain ⟨j, hhead, hid⟩ := Option.map_eq_some'.mp hpid
        have hjlen : j < provs.length := hstack j (hsub j (head?_mem _ j hhead))
        obtain ⟨q0, hq0⟩ : ∃ a, provs.get? j = some a := by
          rw [List.get?_eq_get hjlen]; exact ⟨_, rfl⟩
        have hq0eq : provAt provs j = q0 := by unfold provAt; rw [hq0]; rfl
        refine ⟨j, q0, hjlen, ?_, ?_, ?_⟩
        · rw [List.get?_append hjlen]; exact hq0
        · rw [← hq0eq]; exact hid
        · rw [← hq0eq]; exact hparlev j hhead
      · exfalso
        rw [List.get?_append_right (Nat.le_of_lt hlt)] at hk
        have : k - provs.length ≥ 1 := by omega
        rw [List.get?_eq_none.mpr (by simpa using this)] at hk
        exact Option.noConfusion hk
  · show ((match prov.parent_id with
        | some pid => rels ++ [(pid, "HAS_CHILD", prov.id)]
        | none => rels) ++ refs).filter (fun r => r.2.1 == "HAS_CHILD")
      = (provs ++ [prov]).filterMap hcEdge
    cases hp : prov.parent_id with
    | some pid =>
      simp only [hp]
      rw [List.filter_append, List.filter_append, hrefs, List.filterMap_append, hchild]
      simp [hcEdge, hp]
    | none =>
      simp only [hp]
      rw [List.filter_append, hrefs, List.filterMap_append, hchild]
      simp [hcEdge, hp]
  · intro p hp hlev
    rcases List.mem_append.mp hp with h | h
    · exact hnr p h hlev
    · rw [List.mem_singleton] at h
      subst h
      exact hreq hlev


theorem euEmit_preserves (lang : String) (st : EuState) (level : String)
    (marker : Option String) (title : Option String) (intro body : String)
    (h : EuInv st) : EuInv (euEmit lang st level marker title intro body) := by
  unfold euEmit EuInv
  refine emit_core_preserves CONFIG_EU_AI st.provisions st.relations st.stack _ _ _
    (fun i hi => dropWhile_mem _ _ i hi) rfl (fun j hj => ?_) (fun hc => ?_)
    (filter_hc_refs _ _) h
  · have hfalse := dropWhile_head?_false _ st.stack j hj
    unfold euPopCond at hfalse
    simp at hfalse
    exact hfalse.2
  · rw [build_record_level] at hc
    replace hc : level ∈ CONFIG_EU_AI.non_requirement_levels := by simpa using hc
    refine ⟨?_, ?_, ?_⟩
    · rw [build_record_is_requirement]; simp [computeRequirementFields, hc]
    · rw [build_record_requirement_type]; simp [computeRequirementFields, hc]
    · rw [build_record_roles]; simp [computeRequirementFields, hc]


theorem absorb_preserves (cfg : ParserConfig) (provs : List Provision)
    (rels : List (String × String × String)) (stack : List Nat) (top : Nat) (text : String)
    (h : LoopInv cfg provs rels stack) :
    LoopInv cfg (absorbIntro provs top text) rels stack := by
  unfold absorbIntro
  cases hg : provs.get? top with
  | none => exact h
  | some p =>
    obtain ⟨hstack, hpar, hchild, hnr⟩ := h
    refine ⟨?_, ?_, ?_, ?_⟩
    · intro i hi
      rw [List.length_set]
      exact hstack i hi
    · intro k q hk pid hpid
      rw [get?_set_split] at hk
      by_cases htk : top = k
      · rw [if_pos htk, ← htk, hg] at hk
        simp only [Option.map_some'] at hk
        obtain rfl : { p with intro_text := pyStrip (p.intro_text ++ " " ++ text) } = q := by
          injection hk
        obtain ⟨j, q', hj, hq', hqid, hqlev⟩ := hpar top p hg pid hpid
        rw [htk] at hj
        by_cases htj : top = j
        · exfalso; rw [htk] at htj; omega
        · refine ⟨j, q', hj, ?_, hqid, hqlev⟩
          rw [get?_set_split, if_neg htj]
          exact hq'
      · rw [if_neg htk] at hk
        obtain ⟨j, q', hj, hq', hqid, hqlev⟩ := hpar k q hk pid hpid
        by_cases htj : top = j
        · have hq'p : q' = p := by
            rw [← htj, hg] at hq'
            injection hq' with h1
            exact h1.symm
          refine ⟨j, { p with intro_text := pyStrip (p.intro_text ++ " " ++ text) }, hj, ?_, ?_, ?_⟩
          · rw [get?_set_split, if_pos htj, ← htj, hg]
            simp only [Option.map_some']
          · show p.id = pid; rw [← hq'p]; exact hqid
          · show p.level ≠ "recital"; rw [← hq'p]; exact hqlev
        · refine ⟨j, q', hj, ?_, hqid, hqlev⟩
          rw [get?_set_split, if_neg htj]
          exact hq'
    · show ChildOk (provs.set top _) rels
      unfold ChildOk
      rw [filterMap_set_congr hcEdge provs top _ (fun y hy => by rw [hg] at hy; injection hy with hy; rw [← hy]; rfl)]
      exact hchild
    · intro q hq hlev
      rcases List.mem_or_eq_of_mem_set hq with hmem | heq
      · exact hnr q hmem hlev
      · subst heq
        exact hnr p (List.get?_mem hg) hlev

theorem euStep_preserves (lang : String) (st : EuState) (b : String × String)
    (h : EuInv st) : EuInv (euStep lang st b) := by
  unfold euStep
  split
  · exact h
  · dsimp only
    split
    · exact h
    · split
      · exact euEmit_preserves _ _ _ _ _ _ _ h
      · unfold euNumbered
        dsimp only
        split
        · split
          · split
            · exact euEmit_preserves _ _ _ _ _ _ _ h
            · exact euEmit_preserves _ _ _ _ _ _ _ h
          · exact euEmit_preserves _ _ _ _ _ _ _ h
        · split
          · exact euEmit_preserves _ _ _ _ _ _ _ h
          · split
            · split
              · exact euEmit_preserves _ _ _ _ _ _ _ h
              · exact euEmit_preserves _ _ _ _ _ _ _ h
            · split
              · exact h
              · exact absorb_preserves _ _ _ _ _ _ h

theorem parse_eu_ai_inv (blocks : List (String × String)) (lang : String) :
    LoopInv CONFIG_EU_AI (blocks.foldl (euStep (pyUpper lang)) initialEuState).provisions
      (blocks.foldl (euStep (pyUpper lang)) initialEuState).relations
      (blocks.foldl (euStep (pyUpper lang)) initialEuState).stack := by
  refine foldlPreserves EuInv (euStep (pyUpper lang)) (fun s a hs => euStep_preserves _ s a hs)
    blocks initialEuState ?_
  refine ⟨?_, ?_, ?_, ?_⟩
  · intro i hi; simp [initialEuState] at hi
  · intro k p hk; simp [initialEuState] at hk
  · rfl
  · intro p hp; simp [initialEuState] at hp


theorem nonreq_absorb (cfg : ParserConfig) (provs : List Provision) (top : Nat)
    (text : String) (h : NonReqOk cfg provs) : NonReqOk cfg (absorbIntro provs top text) := by
  unfold absorbIntro
  cases hg : provs.get? top with
  | none => exact h
  | some p =>
    intro q hq hlev
    rcases List.mem_or_eq_of_mem_set hq with hmem | heq
    · exact h q hmem hlev
    · subst heq
      exact h p (List.get?_mem hg) hlev

theorem mdrEmit_preserves (lang : String) (st : MdrState) (level : String)
    (marker : Option String) (title : Option String) (intro body text : String)
    (h : MdrInv st) : MdrInv (mdrEmit lang st level marker title intro body text) := by
  intro p hp hlev
  rcases List.mem_append.mp hp with hmem | hone
  · exact h p hmem hlev
  · rw [List.mem_singleton] at hone
    subst hone
    rw [build_record_level] at hlev
    replace hlev : level ∈ CONFIG_MDR.non_requirement_levels := by simpa using hlev
    refine ⟨?_, ?_, ?_⟩
    · rw [build_record_is_requirement]; simp [computeRequirementFields, hlev]
    · rw [build_record_requirement_type]; simp [computeRequirementFields, hlev]
    · rw [build_record_roles]; simp [computeRequirementFields, hlev]

theorem mdrStep_preserves (lang : String) (st : MdrState) (b : String × String)
    (h : MdrInv st) : MdrInv (mdrStep lang st b) := by
  unfold mdrStep
  split
  · exact h
  · dsimp only
    split
    · exact h
    · split
      · exact mdrEmit_preserves _ _ _ _ _ _ _ _ h
      · split
        · exact mdrEmit_preserves _ _ _ _ _ _ _ _ h
        · split
          · exact h
          · exact nonreq_absorb _ _ _ _ h

theorem parse_mdr_inv (blocks : List (String × String)) (lang : String) :
    NonReqOk CONFIG_MDR
      (blocks.foldl (mdrStep (pyUpper (if lang == "" then "EN" else lang)))
        initialMdrState).provisions := by
  refine foldlPreserves MdrInv (mdrStep _) (fun s a hs => mdrStep_preserves _ s a hs)
    blocks initialMdrState ?_
  intro p hp
  simp [initialMdrState] at hp


theorem filter_sub {α : Type} (p q : α → Bool) (l : List α)
    (h : ∀ a, q a = true → p a = true) : l.filter q = (l.filter p).filter q := by
  induction l with
  | nil => rfl
  | cons a t ih =>
    by_cases hq : q a = true
    · simp [List.filter_cons, hq, h a hq, ih]
    · by_cases hp : p a = true <;> simp [List.filter_cons, hq, hp, ih]

theorem length_filter_filterMap {α β : Type} (f : α → Option β) (q : β → Bool) (l : List α) :
    ((l.filterMap f).filter q).length
      = (l.filter (fun a =>
          match f a with
          | some b => q b
          | none => false)).length := by
  induction l with
  | nil => rfl
  | cons a t ih =>
    cases hf : f a with
    | none => simp [List.filterMap_cons, hf, List.filter_cons, ih]
    | some b =>
      by_cases hq : q b = true <;>
        simp [List.filterMap_cons, hf, List.filter_cons, hq, ih]

theorem filter_count_flatten (rels : List (String × String × String)) (a b c : String) :
    ((flatten_relations rels).filter
        (fun r => decide (r = ⟨a, b, c⟩))).length
      = (rels.filter (fun t => decide (t = (a, b, c)))).length := by
  induction rels with
  | nil => rfl
  | cons t ts ih =>
    obtain ⟨t1, t2, t3⟩ := t
    simp only [flatten_relations, List.map_cons, List.filter_cons] at ih ⊢
    by_cases h1 : t1 = a <;> by_cases h2 : t2 = b <;> by_cases h3 : t3 = c <;>
      simp [h1, h2, h3, RelationObj.mk.injEq, Prod.mk.injEq, ih, flatten_relations]

theorem find_tagged {α : Type} (f : String × α → Bool) (tag : String) :
    ∀ (l : List α) (rest : List (String × α)), l.any (fun p => f (tag, p)) = true →
      ∃ x, ((l.map (fun p => (tag, p)) ++ rest).find? f) = some (tag, x) := by
  intro l
  induction l with
  | nil => intro rest h; simp at h
  | cons a t ih =>
    intro rest h
    rw [List.map_cons, List.cons_append, List.find?_cons]
    by_cases ha : f (tag, a) = true
    · exact ⟨a, by simp [ha]⟩
    · rw [List.any_cons] at h
      rcases Bool.or_eq_true_iff.mp h with h' | h'
      · exact absurd h' ha
      · simpa [ha] using ih rest h'

/-- C2: if any prohibition pattern of the selected language table
matches, the classification is prohibition, because the flattened
pattern list puts the whole prohibition group first; in particular the
two spec examples classify as prohibition, not obligation or
permission. -/
theorem prohibition_precedence :
    (∀ text lang, (reqPatternsGet (pyUpper lang)).prohibition.any
        (fun p => p.matches text) = true →
      classify_requirement_type text lang = "prohibition")
    ∧ classify_requirement_type "The provider shall not process data" "EN" = "prohibition"
    ∧ classify_requirement_type
        "The deployer may not use the system for prohibited purposes." "EN" = "prohibition" := by
  refine ⟨?_, by decide, by decide⟩
  intro text lang h
  unfold classify_requirement_type
  obtain ⟨x, hx⟩ := find_tagged (fun tp => tp.2.matches text) "prohibition"
    (reqPatternsGet (pyUpper lang)).prohibition
    ((reqPatternsGet (pyUpper lang)).obligation.map (fun p => ("obligation", p)) ++
      ((reqPatternsGet (pyUpper lang)).permission.map (fun p => ("permission", p)) ++
        (reqPatternsGet (pyUpper lang)).definition.map (fun p => ("definition", p)))) h
  dsimp only
  rw [List.append_assoc, List.append_assoc, hx]

/-- Witness for C2 at a concrete prohibited text. -/
theorem prohibition_precedence_witness :
    classify_requirement_type "Providers shall refrain from such practices" "EN"
      = "prohibition" :=
  prohibition_precedence.1 "Providers shall refrain from such practices" "EN" (by decide)


/-- C4: in each supported language, a text classified definition is
never an obligation in the semantic enrichment, and when any
requirement pattern matches, is_obligation is true exactly for the
classifications obligation, prohibition and permission. -/
theorem definition_never_obligation :
    ∀ (text kind celex lang : String), lang ∈ (["EN", "DE", "FR"] : List String) →
      (classify_requirement_type text lang = "definition" →
        (enrich_semantics text kind celex lang).is_obligation = false)
      ∧ (classify_requirement_type text lang ≠ "other" →
        ((enrich_semantics text kind celex lang).is_obligation = true ↔
          classify_requirement_type text lang ∈ ["obligation", "prohibition", "permission"])) := by
  intro text kind celex lang hlang
  have hnorm : pyUpper (if lang == "" then "EN" else lang) = lang := by
    fin_cases hlang <;> rfl
  constructor
  · intro hdef
    unfold enrich_semantics
    rw [hnorm]
    dsimp only
    rw [hdef]
    simp
  · intro hno
    unfold enrich_semantics
    rw [hnorm]
    dsimp only
    rw [if_pos hno]
    exact decide_eq_true_iff

/-- Witness for C4 at a concrete definitional text. -/
theorem definition_never_obligation_witness :
    (enrich_semantics "The term refers to automated systems." "paragraph" "32024R1689"
      "EN").is_obligation = false :=
  (definition_never_obligation "The term refers to automated systems." "paragraph"
    "32024R1689" "EN" (by decide)).1 (by decide)

/-- C10: a language whose upper-cased code is not EN, DE or FR falls
back to the English pattern tables for requirement classification and
to the English vocabulary for role detection. -/
theorem unsupported_language_fallback :
    ∀ (text lang : String), pyUpper lang ∉ (["EN", "DE", "FR"] : List String) →
      classify_requirement_type text lang = classify_requirement_type text "EN"
      ∧ is_requirement_text text lang = is_requirement_text text "EN"
      ∧ ∀ m : RoleKeywordMap,
        detect_roles_from_keywords text lang m = detect_roles_from_keywords text "EN" m := by
  intro text lang h
  simp only [List.mem_cons, List.not_mem_nil, or_false, not_or] at h
  obtain ⟨h1, h2, h3⟩ := h
  have htab : reqPatternsGet (pyUpper lang) = REQ_PATTERNS_EN := by
    unfold reqPatternsGet
    simp [h1, h2, h3]
  have htabEN : reqPatternsGet (pyUpper "EN") = REQ_PATTERNS_EN := rfl
  refine ⟨?_, ?_, ?_⟩
  · unfold classify_requirement_type
    rw [htab, htabEN]
  · unfold is_requirement_text
    rw [htab, htabEN]
  · intro m
    unfold detect_roles_from_keywords
    have hm1 : roleMapGet m (pyUpper (if lang == "" then "EN" else lang)) = m.en := by
      by_cases hl : lang = ""
      · subst hl; rfl
      · rw [if_neg (by simp [hl])]
        unfold roleMapGet
        simp [h1, h2, h3]
    have hm2 : roleMapGet m (pyUpper (if "EN" == "" then "EN" else "EN")) = m.en := rfl
    rw [hm1, hm2]

/-- Witness for C10 at the unsupported language code ES. -/
theorem unsupported_language_fallback_witness :
    classify_requirement_type "The provider shall comply." "ES"
      = classify_requirement_type "The provider shall comply." "EN" :=
  (unsupported_language_fallback "The provider shall comply." "ES" (by decide)).1


/-- C6 counterexample: an article heading takes Arabic numerals only
and a chapter heading Roman numerals only, so the spec's examples
Article IV and CHAPTER 2 are not recognised as headings and fall
through to paragraph blocks. -/
theorem heading_numeral_counterexample :
    classify_block "p" "Article IV" "EN" ≠ some ⟨"article_title", "Article IV"⟩
    ∧ classify_block "p" "CHAPTER 2" "EN" ≠ some ⟨"chapter_title", "CHAPTER 2"⟩
    ∧ classify_block "p" "Article IV" "EN" = some ⟨"paragraph", "Article IV"⟩
    ∧ classify_block "p" "CHAPTER 2" "EN" = some ⟨"paragraph", "CHAPTER 2"⟩ := by
  exact ⟨by decide, by decide, by decide, by decide⟩

theorem roman_letter_props (c : Char) (h : isRomanLetter c = true) :
    isRomanCI c = true ∧ Char.isDigit c = false ∧ isWs c = false := by
  simp [isRomanLetter] at h
  rcases h with rfl | rfl | rfl | rfl | rfl | rfl | rfl | rfl | rfl | rfl | rfl | rfl | rfl |
    rfl <;> decide

theorem arabic_digit_props (c : Char) (h : isArabicDigit c = true) :
    Char.isDigit c = true ∧ isRomanCI c = false ∧ isWs c = false := by
  simp [isArabicDigit] at h
  rcases h with rfl | rfl | rfl | rfl | rfl | rfl | rfl | rfl | rfl | rfl <;> decide

theorem normWordsAux_all_nonws :
    ∀ (l cur : List Char), (∀ d ∈ l, isWs d = false) → (cur ≠ [] ∨ l ≠ []) →
      normWordsAux cur l = [cur.reverse ++ l] := by
  intro l
  induction l with
  | nil =>
    intro cur h hor
    rcases hor with hcur | hl
    · unfold normWordsAux
      rw [if_neg (by simpa using hcur)]
      simp
    · exact absurd rfl hl
  | cons c cs ih =>
    intro cur h hor
    unfold normWordsAux
    rw [h c (List.mem_cons_self c cs)]
    simp only [Bool.false_eq_true, if_false]
    rw [ih (c :: cur) (fun d hd => h d (List.mem_cons_of_mem c hd)) (Or.inl (by simp))]
    simp

theorem normalize_kw_num (kw : List Char) (num : String)
    (hsteps : normWordsAux [] (kw ++ ' ' :: num.data) = kw :: normWordsAux [] num.data)
    (hnw : ∀ d ∈ num.data, isWs d = false) (hne : num.data ≠ []) :
    normalize_text (String.mk (kw ++ ' ' :: num.data)) = String.mk (kw ++ ' ' :: num.data) := by
  unfold normalize_text
  rw [show (String.mk (kw ++ ' ' :: num.data)).data = kw ++ ' ' :: num.data from rfl]
  rw [hsteps, normWordsAux_all_nonws num.data [] hnw (Or.inr hne)]
  rfl

theorem afterKwWs_ws_num (kwl : List Char) (text : String) (c : Char) (cs : List Char)
    (hm : matchCI kwl text.data = some (' ' :: c :: cs))
    (hw : isWs c = false) :
    afterKwWs kwl text.data = some (c :: cs) := by
  unfold afterKwWs
  rw [hm]
  show some ((c :: cs).dropWhile isWs) = some (c :: cs)
  rw [List.dropWhile_cons, hw]
  simp

theorem kwRomanStart_true (kw : String) (text : String) (c : Char) (cs : List Char)
    (hm : matchCI (kw.data.map lc) text.data = some (' ' :: c :: cs))
    (hcls : ∀ d ∈ c :: cs, isRomanCI d = true)
    (hnw : ∀ d ∈ c :: cs, isWs d = false) :
    kwRomanStart kw text = true := by
  unfold kwRomanStart
  rw [afterKwWs_ws_num _ text c cs hm (hnw c (List.mem_cons_self c cs))]
  show classRunB isRomanCI (c :: cs) = true
  unfold classRunB
  rw [List.takeWhile_eq_self_iff.mpr hcls, List.dropWhile_eq_nil_iff.mpr hcls]
  simp [tailOk]

theorem kwRomanStart_false_digits (kw : String) (text : String) (c : Char) (cs : List Char)
    (hm : matchCI (kw.data.map lc) text.data = some (' ' :: c :: cs))
    (hcls : ∀ d ∈ c :: cs, isRomanCI d = false)
    (hnw : ∀ d ∈ c :: cs, isWs d = false) :
    kwRomanStart kw text = false := by
  unfold kwRomanStart
  rw [afterKwWs_ws_num _ text c cs hm (hnw c (List.mem_cons_self c cs))]
  show classRunB isRomanCI (c :: cs) = false
  unfold classRunB
  rw [List.takeWhile_cons, hcls c (List.mem_cons_self c cs)]
  simp

theorem kwDigitStart_true (kw : String) (text : String) (c : Char) (cs : List Char)
    (hm : matchCI (kw.data.map lc) text.data = some (' ' :: c :: cs))
    (hcls : ∀ d ∈ c :: cs, Char.isDigit d = true)
    (hnw : ∀ d ∈ c :: cs, isWs d = false) :
    kwDigitStart kw text = true := by
  unfold kwDigitStart
  rw [afterKwWs_ws_num _ text c cs hm (hnw c (List.mem_cons_self c cs))]
  exact hcls c (List.mem_cons_self c cs)

theorem kwDigitStart_false_roman (kw : String) (text : String) (c : Char) (cs : List Char)
    (hm : matchCI (kw.data.map lc) text.data = some (' ' :: c :: cs))
    (hcls : ∀ d ∈ c :: cs, Char.isDigit d = false)
    (hnw : ∀ d ∈ c :: cs, isWs d = false) :
    kwDigitStart kw text = false := by
  unfold kwDigitStart
  rw [afterKwWs_ws_num _ text c cs hm (hnw c (List.mem_cons_self c cs))]
  exact hcls c (List.mem_cons_self c cs)

theorem kwAltStart_true_roman (kw : String) (text : String) (c : Char) (cs : List Char)
    (hm : matchCI (kw.data.map lc) text.data = some (' ' :: c :: cs))
    (hcls : ∀ d ∈ c :: cs, isRomanCI d = true)
    (hnw : ∀ d ∈ c :: cs, isWs d = false) :
    kwRomanOrDigitStart kw text = true := by
  unfold kwRomanOrDigitStart
  rw [afterKwWs_ws_num _ text c cs hm (hnw c (List.mem_cons_self c cs))]
  show (classRunB isRomanCI (c :: cs) || classRunB Char.isDigit (c :: cs)) = true
  unfold classRunB
  rw [List.takeWhile_eq_self_iff.mpr hcls, List.dropWhile_eq_nil_iff.mpr hcls]
  simp [tailOk]

theorem kwAltStart_true_digits (kw : String) (text : String) (c : Char) (cs : List Char)
    (hm : matchCI (kw.data.map lc) text.data = some (' ' :: c :: cs))
    (hcls : ∀ d ∈ c :: cs, Char.isDigit d = true)
    (hrom : ∀ d ∈ c :: cs, isRomanCI d = false)
    (hnw : ∀ d ∈ c :: cs, isWs d = false) :
    kwRomanOrDigitStart kw text = true := by
  unfold kwRomanOrDigitStart
  rw [afterKwWs_ws_num _ text c cs hm (hnw c (List.mem_cons_self c cs))]
  show (classRunB isRomanCI (c :: cs) || classRunB Char.isDigit (c :: cs)) = true
  unfold classRunB
  rw [List.takeWhile_cons, hrom c (List.mem_cons_self c cs)]
  rw [List.takeWhile_eq_self_iff.mpr hcls, List.dropWhile_eq_nil_iff.mpr hcls]
  simp [tailOk]

theorem classify_block_is_annex (tag rawText lang text : String)
    (hnorm : normalize_text rawText = text)
    (hne : (text == "") = false)
    (hA : kwRomanStart (langKeywordsGet (pyUpper lang)).annex text = true) :
    classify_block tag rawText lang = some ⟨"annex_title", text⟩ := by
  unfold classify_block
  dsimp only
  rw [hnorm]
  simp [hne, hA]

theorem classify_block_is_chapter (tag rawText lang text : String)
    (hnorm : normalize_text rawText = text)
    (hne : (text == "") = false)
    (hA : kwRomanStart (langKeywordsGet (pyUpper lang)).annex text = false)
    (hC : kwRomanStart (langKeywordsGet (pyUpper lang)).chapter text = true) :
    classify_block tag rawText lang = some ⟨"chapter_title", text⟩ := by
  unfold classify_block
  dsimp only
  rw [hnorm]
  simp [hne, hA, hC]

theorem classify_block_is_section (tag rawText lang text : String)
    (hnorm : normalize_text rawText = text)
    (hne : (text == "") = false)
    (hA : kwRomanStart (langKeywordsGet (pyUpper lang)).annex text = false)
    (hC : kwRomanStart (langKeywordsGet (pyUpper lang)).chapter text = false)
    (hS : kwRomanOrDigitStart (langKeywordsGet (pyUpper lang)).sectionKw text = true) :
    classify_block tag rawText lang = some ⟨"section_title", text⟩ := by
  unfold classify_block
  dsimp only
  rw [hnorm]
  simp [hne, hA, hC, hS]

theorem classify_block_is_article (tag rawText lang text : String)
    (hnorm : normalize_text rawText = text)
    (hne : (text == "") = false)
    (hA : kwRomanStart (langKeywordsGet (pyUpper lang)).annex text = false)
    (hC : kwRomanStart (langKeywordsGet (pyUpper lang)).chapter text = false)
    (hS : kwRomanOrDigitStart (langKeywordsGet (pyUpper lang)).sectionKw text = false)
    (hArt : kwDigitStart (langKeywordsGet (pyUpper lang)).article text = true) :
    classify_block tag rawText lang = some ⟨"article_title", text⟩ := by
  unfold classify_block
  dsimp only
  rw [hnorm]
  simp [hne, hA, hC, hS, hArt]

theorem classify_block_is_paragraph (tag rawText lang text : String)
    (hnorm : normalize_text rawText = text)
    (hne : (text == "") = false)
    (hA : kwRomanStart (langKeywordsGet (pyUpper lang)).annex text = false)
    (hC : kwRomanStart (langKeywordsGet (pyUpper lang)).chapter text = false)
    (hS : kwRomanOrDigitStart (langKeywordsGet (pyUpper lang)).sectionKw text = false)
    (hArt : kwDigitStart (langKeywordsGet (pyUpper lang)).article text = false)
    (htag : (tag == "table") = false) :
    classify_block tag rawText lang = some ⟨"paragraph", text⟩ := by
  unfold classify_block
  dsimp only
  rw [hnorm]
  simp [hne, hA, hC, hS, hArt, htag]

end Crss

namespace Crss

/-- C6 amended: for every non-empty numeral string of the kind-specific
character class, each heading kind is recognised per supported language,
checked lexically only, never arithmetically: annex and chapter accept
Roman-class letters only, section accepts Roman or Arabic, article
accepts Arabic digits only; the wrong class for annex, chapter and
article falls through (annex and chapter with digits, and article with
Roman letters, classify as paragraph). -/
theorem heading_numeral_classes (num : String) (hne : num.data ≠ []) :
    (num.data.all isRomanLetter = true →
      classify_block "p" ("ANNEX " ++ num) "EN" = some ⟨"annex_title", "ANNEX " ++ num⟩ ∧
      classify_block "p" ("CHAPTER " ++ num) "EN" = some ⟨"chapter_title", "CHAPTER " ++ num⟩ ∧
      classify_block "p" ("SECTION " ++ num) "EN" = some ⟨"section_title", "SECTION " ++ num⟩ ∧
      classify_block "p" ("Article " ++ num) "EN" = some ⟨"paragraph", "Article " ++ num⟩ ∧
      classify_block "p" ("ANHANG " ++ num) "DE" = some ⟨"annex_title", "ANHANG " ++ num⟩ ∧
      classify_block "p" ("KAPITEL " ++ num) "DE" = some ⟨"chapter_title", "KAPITEL " ++ num⟩ ∧
      classify_block "p" ("ABSCHNITT " ++ num) "DE" =
        some ⟨"section_title", "ABSCHNITT " ++ num⟩ ∧
      classify_block "p" ("Artikel " ++ num) "DE" = some ⟨"paragraph", "Artikel " ++ num⟩ ∧
      classify_block "p" ("ANNEXE " ++ num) "FR" = some ⟨"annex_title", "ANNEXE " ++ num⟩ ∧
      classify_block "p" ("CHAPITRE " ++ num) "FR" =
        some ⟨"chapter_title", "CHAPITRE " ++ num⟩ ∧
      classify_block "p" ("SECTION " ++ num) "FR" = some ⟨"section_title", "SECTION " ++ num⟩ ∧
      classify_block "p" ("Article " ++ num) "FR" = some ⟨"paragraph", "Article " ++ num⟩) ∧
    (num.data.all isArabicDigit = true →
      classify_block "p" ("ANNEX " ++ num) "EN" = some ⟨"paragraph", "ANNEX " ++ num⟩ ∧
      classify_block "p" ("CHAPTER " ++ num) "EN" = some ⟨"paragraph", "CHAPTER " ++ num⟩ ∧
      classify_block "p" ("SECTION " ++ num) "EN" = some ⟨"section_title", "SECTION " ++ num⟩ ∧
      classify_block "p" ("Article " ++ num) "EN" = some ⟨"article_title", "Article " ++ num⟩ ∧
      classify_block "p" ("ANHANG " ++ num) "DE" = some ⟨"paragraph", "ANHANG " ++ num⟩ ∧
      classify_block "p" ("KAPITEL " ++ num) "DE" = some ⟨"paragraph", "KAPITEL " ++ num⟩ ∧
      classify_block "p" ("ABSCHNITT " ++ num) "DE" =
        some ⟨"section_title", "ABSCHNITT " ++ num⟩ ∧
      classify_block "p" ("Artikel " ++ num) "DE" = some ⟨"article_title", "Artikel " ++ num⟩ ∧
      classify_block "p" ("ANNEXE " ++ num) "FR" = some ⟨"paragraph", "ANNEXE " ++ num⟩ ∧
      classify_block "p" ("CHAPITRE " ++ num) "FR" = some ⟨"paragraph", "CHAPITRE " ++ num⟩ ∧
      classify_block "p" ("SECTION " ++ num) "FR" = some ⟨"section_title", "SECTION " ++ num⟩ ∧
      classify_block "p" ("Article " ++ num) "FR" =
        some ⟨"article_title", "Article " ++ num⟩) := by
  obtain ⟨c, cs, hnum⟩ : ∃ c cs, num.data = c :: cs := by
    cases hd : num.data with
    | nil => exact absurd hd hne
    | cons c cs => exact ⟨c, cs, rfl⟩
  constructor
  · intro hall
    have hR : ∀ d ∈ num.data, isRomanCI d = true :=
      fun d hd => (roman_letter_props d (List.all_eq_true.mp hall d hd)).1
    have hD : ∀ d ∈ num.data, Char.isDigit d = false :=
      fun d hd => (roman_letter_props d (List.all_eq_true.mp hall d hd)).2.1
    have hW : ∀ d ∈ num.data, isWs d = false :=
      fun d hd => (roman_letter_props d (List.all_eq_true.mp hall d hd)).2.2
    refine ⟨?_, ?_, ?_, ?_, ?_, ?_, ?_, ?_, ?_, ?_, ?_, ?_⟩
    · have hm : matchCI ((langKeywordsGet (pyUpper "EN")).annex.data.map lc)
          ("ANNEX " ++ num).data = some (' ' :: num.data) := rfl
      rw [hnum] at hm
      exact classify_block_is_annex "p" _ "EN" _
        (normalize_kw_num "ANNEX".data num rfl hW hne) rfl
        (kwRomanStart_true _ _ c cs hm (hnum ▸ hR) (hnum ▸ hW))
    · have hm : matchCI ((langKeywordsGet (pyUpper "EN")).chapter.data.map lc)
          ("CHAPTER " ++ num).data = some (' ' :: num.data) := rfl
      rw [hnum] at hm
      exact classify_block_is_chapter "p" _ "EN" _
        (normalize_kw_num "CHAPTER".data num rfl hW hne) rfl rfl
        (kwRomanStart_true _ _ c cs hm (hnum ▸ hR) (hnum ▸ hW))
    · have hm : matchCI ((langKeywordsGet (pyUpper "EN")).sectionKw.data.map lc)
          ("SECTION " ++ num).data = some (' ' :: num.data) := rfl
      rw [hnum] at hm
      exact classify_block_is_section "p" _ "EN" _
        (normalize_kw_num "SECTION".data num rfl hW hne) rfl rfl rfl
        (kwAltStart_true_roman _ _ c cs hm (hnum ▸ hR) (hnum ▸ hW))
    · have hm : matchCI ((langKeywordsGet (pyUpper "EN")).article.data.map lc)
          ("Article " ++ num).data = some (' ' :: num.data) := rfl
      rw [hnum] at hm
      exact classify_block_is_paragraph "p" _ "EN" _
        (normalize_kw_num "Article".data num rfl hW hne) rfl rfl rfl rfl
        (kwDigitStart_false_roman _ _ c cs hm (hnum ▸ hD) (hnum ▸ hW)) rfl
    · have hm : matchCI ((langKeywordsGet (pyUpper "DE")).annex.data.map lc)
          ("ANHANG " ++ num).data = some (' ' :: num.data) := rfl
      rw [hnum] at hm
      exact classify_block_is_annex "p" _ "DE" _
        (normalize_kw_num "ANHANG".data num rfl hW hne) rfl
        (kwRomanStart_true _ _ c cs hm (hnum ▸ hR) (hnum ▸ hW))
    · have hm : matchCI ((langKeywordsGet (pyUpper "DE")).chapter.data.map lc)
          ("KAPITEL " ++ num).data = some (' ' :: num.data) := rfl
      rw [hnum] at hm
      exact classify_block_is_chapter "p" _ "DE" _
        (normalize_kw_num "KAPITEL".data num rfl hW hne) rfl rfl
        (kwRomanStart_true _ _ c cs hm (hnum ▸ hR) (hnum ▸ hW))
    · have hm : matchCI ((langKeywordsGet (pyUpper "DE")).sectionKw.data.map lc)
          ("ABSCHNITT " ++ num).data = some (' ' :: num.data) := rfl
      rw [hnum] at hm
      exact classify_block_is_section "p" _ "DE" _
        (normalize_kw_num "ABSCHNITT".data num rfl hW hne) rfl rfl rfl
        (kwAltStart_true_roman _ _ c cs hm (hnum ▸ hR) (hnum ▸ hW))
    · have hm : matchCI ((langKeywordsGet (pyUpper "DE")).article.data.map lc)
          ("Artikel " ++ num).data = some (' ' :: num.data) := rfl
      rw [hnum] at hm
      exact classify_block_is_paragraph "p" _ "DE" _
        (normalize_kw_num "Artikel".data num rfl hW hne) rfl rfl rfl rfl
        (kwDigitStart_false_roman _ _ c cs hm (hnum ▸ hD) (hnum ▸ hW)) rfl
    · have hm : matchCI ((langKeywordsGet (pyUpper "FR")).annex.data.map lc)
          ("ANNEXE " ++ num).data = some (' ' :: num.data) := rfl
      rw [hnum] at hm
      exact classify_block_is_annex "p" _ "FR" _
        (normalize_kw_num "ANNEXE".data num rfl hW hne) rfl
        (kwRomanStart_true _ _ c cs hm (hnum ▸ hR) (hnum ▸ hW))
    · have hm : matchCI ((langKeywordsGet (pyUpper "FR")).chapter.data.map lc)
          ("CHAPITRE " ++ num).data = some (' ' :: num.data) := rfl
      rw [hnum] at hm
      exact classify_block_is_chapter "p" _ "FR" _
        (normalize_kw_num "CHAPITRE".data num rfl hW hne) rfl rfl
        (kwRomanStart_true _ _ c cs hm (hnum ▸ hR) (hnum ▸ hW))
    · have hm : matchCI ((langKeywordsGet (pyUpper "FR")).sectionKw.data.map lc)
          ("SECTION " ++ num).data = some (' ' :: num.data) := rfl
      rw [hnum] at hm
      exact classify_block_is_section "p" _ "FR" _
        (normalize_kw_num "SECTION".data num rfl hW hne) rfl rfl rfl
        (kwAltStart_true_roman _ _ c cs hm (hnum ▸ hR) (hnum ▸ hW))
    · have hm : matchCI ((langKeywordsGet (pyUpper "FR")).article.data.map lc)
          ("Article " ++ num).data = some (' ' :: num.data) := rfl
      rw [hnum] at hm
      exact classify_block_is_paragraph "p" _ "FR" _
        (normalize_kw_num "Article".data num rfl hW hne) rfl rfl rfl rfl
        (kwDigitStart_false_roman _ _ c cs hm (hnum ▸ hD) (hnum ▸ hW)) rfl
  · intro hall
    have hD : ∀ d ∈ num.data, Char.isDigit d = true :=
      fun d hd => (arabic_digit_props d (List.all_eq_true.mp hall d hd)).1
    have hRno : ∀ d ∈ num.data, isRomanCI d = false :=
      fun d hd => (arabic_digit_props d (List.all_eq_true.mp hall d hd)).2.1
    have hW : ∀ d ∈ num.data, isWs d = false :=
      fun d hd => (arabic_digit_props d (List.all_eq_true.mp hall d hd)).2.2
    refine ⟨?_, ?_, ?_, ?_, ?_, ?_, ?_, ?_, ?_, ?_, ?_, ?_⟩
    · have hm : matchCI ((langKeywordsGet (pyUpper "EN")).annex.data.map lc)
          ("ANNEX " ++ num).data = some (' ' :: num.data) := rfl
      rw [hnum] at hm
      exact classify_block_is_paragraph "p" _ "EN" _
        (normalize_kw_num "ANNEX".data num rfl hW hne) rfl
        (kwRomanStart_false_digits _ _ c cs hm (hnum ▸ hRno) (hnum ▸ hW)) rfl rfl rfl rfl
    · have hm : matchCI ((langKeywordsGet (pyUpper "EN")).chapter.data.map lc)
          ("CHAPTER " ++ num).data = some (' ' :: num.data) := rfl
      rw [hnum] at hm
      exact classify_block_is_paragraph "p" _ "EN" _
        (normalize_kw_num "CHAPTER".data num rfl hW hne) rfl rfl
        (kwRomanStart_false_digits _ _ c cs hm (hnum ▸ hRno) (hnum ▸ hW)) rfl rfl rfl
    · have hm : matchCI ((langKeywordsGet (pyUpper "EN")).sectionKw.data.map lc)
          ("SECTION " ++ num).data = some (' ' :: num.data) := rfl
      rw [hnum] at hm
      exact classify_block_is_section "p" _ "EN" _
        (normalize_kw_num "SECTION".data num rfl hW hne) rfl rfl rfl
        (kwAltStart_true_digits _ _ c cs hm (hnum ▸ hD) (hnum ▸ hRno) (hnum ▸ hW))
    · have hm : matchCI ((langKeywordsGet (pyUpper "EN")).article.data.map lc)
          ("Article " ++ num).data = some (' ' :: num.data) := rfl
      rw [hnum] at hm
      exact classify_block_is_article "p" _ "EN" _
        (normalize_kw_num "Article".data num rfl hW hne) rfl rfl rfl rfl
        (kwDigitStart_true _ _ c cs hm (hnum ▸ hD) (hnum ▸ hW))
    · have hm : matchCI ((langKeywordsGet (pyUpper "DE")).annex.data.map lc)
          ("ANHANG " ++ num).data = some (' ' :: num.data) := rfl
      rw [hnum] at hm
      exact classify_block_is_paragraph "p" _ "DE" _
        (normalize_kw_num "ANHANG".data num rfl hW hne) rfl
        (kwRomanStart_false_digits _ _ c cs hm (hnum ▸ hRno) (hnum ▸ hW)) rfl rfl rfl rfl
    · have hm : matchCI ((langKeywordsGet (pyUpper "DE")).chapter.data.map lc)
          ("KAPITEL " ++ num).data = some (' ' :: num.data) := rfl
      rw [hnum] at hm
      exact classify_block_is_paragraph "p" _ "DE" _
        (normalize_kw_num "KAPITEL".data num rfl hW hne) rfl rfl
        (kwRomanStart_false_digits _ _ c cs hm (hnum ▸ hRno) (hnum ▸ hW)) rfl rfl rfl
    · have hm : matchCI ((langKeywordsGet (pyUpper "DE")).sectionKw.data.map lc)
          ("ABSCHNITT " ++ num).data = some (' ' :: num.data) := rfl
      rw [hnum] at hm
      exact classify_block_is_section "p" _ "DE" _
        (normalize_kw_num "ABSCHNITT".data num rfl hW hne) rfl rfl rfl
        (kwAltStart_true_digits _ _ c cs hm (hnum ▸ hD) (hnum ▸ hRno) (hnum ▸ hW))
    · have hm : matchCI ((langKeywordsGet (pyUpper "DE")).article.data.map lc)
          ("Artikel " ++ num).data = some (' ' :: num.data) := rfl
      rw [hnum] at hm
      exact classify_block_is_article "p" _ "DE" _
        (normalize_kw_num "Artikel".data num rfl hW hne) rfl rfl rfl rfl
        (kwDigitStart_true _ _ c cs hm (hnum ▸ hD) (hnum ▸ hW))
    · have hm : matchCI ((langKeywordsGet (pyUpper "FR")).annex.data.map lc)
          ("ANNEXE " ++ num).data = some (' ' :: num.data) := rfl
      rw [hnum] at hm
      exact classify_block_is_paragraph "p" _ "FR" _
        (normalize_kw_num "ANNEXE".data num rfl hW hne) rfl
        (kwRomanStart_false_digits _ _ c cs hm (hnum ▸ hRno) (hnum ▸ hW)) rfl rfl rfl rfl
    · have hm : matchCI ((langKeywordsGet (pyUpper "FR")).chapter.data.map lc)
          ("CHAPITRE " ++ num).data = some (' ' :: num.data) := rfl
      rw [hnum] at hm
      exact classify_block_is_paragraph "p" _ "FR" _
        (normalize_kw_num "CHAPITRE".data num rfl hW hne) rfl rfl
        (kwRomanStart_false_digits _ _ c cs hm (hnum ▸ hRno) (hnum ▸ hW)) rfl rfl rfl
    · have hm : matchCI ((langKeywordsGet (pyUpper "FR")).sectionKw.data.map lc)
          ("SECTION " ++ num).data = some (' ' :: num.data) := rfl
      rw [hnum] at hm
      exact classify_block_is_section "p" _ "FR" _
        (normalize_kw_num "SECTION".data num rfl hW hne) rfl rfl rfl
        (kwAltStart_true_digits _ _ c cs hm (hnum ▸ hD) (hnum ▸ hRno) (hnum ▸ hW))
    · have hm : matchCI ((langKeywordsGet (pyUpper "FR")).article.data.map lc)
          ("Article " ++ num).data = some (' ' :: num.data) := rfl
      rw [hnum] at hm
      exact classify_block_is_article "p" _ "FR" _
        (normalize_kw_num "Article".data num rfl hW hne) rfl rfl rfl rfl
        (kwDigitStart_true _ _ c cs hm (hnum ▸ hD) (hnum ▸ hW))

/-- Witness for C6 at the lexical Roman string VVVV and the Arabic
string 007. -/
theorem heading_numeral_classes_witness :
    ("VVVV" : String).data ≠ [] ∧ ("VVVV" : String).data.all isRomanLetter = true ∧
    classify_block "p" "CHAPTER VVVV" "EN" = some ⟨"chapter_title", "CHAPTER VVVV"⟩ ∧
    ("007" : String).data ≠ [] ∧ ("007" : String).data.all isArabicDigit = true ∧
    classify_block "p" "CHAPTER 007" "EN" = some ⟨"paragraph", "CHAPTER 007"⟩ := by
  refine ⟨by decide, by decide, ?_, by decide, by decide, ?_⟩
  · exact ((heading_numeral_classes "VVVV" (by decide)).1 (by decide)).2.1
  · exact ((heading_numeral_classes "007" (by decide)).2 (by decide)).2.1

/-- C7 counterexample: a parenthesised single Roman letter i is matched
by the point pattern, which precedes the subpoint pattern, so the spec's
example does not yield subpoint. -/
theorem paren_roman_counterexample :
    detect_numbering "(i) text" ≠ (some "subpoint", some "i", "text")
    ∧ detect_numbering "(i) text" = (some "point", some "i", "text") := by
  exact ⟨by decide, by decide⟩

/-- C7 amended: for every non-empty body that does not start with
whitespace and contains no newline, a parenthesised single i yields
point with marker i and the body, and subpoint is produced for
multi-letter Roman markers such as ii.  (On a body containing a
newline the capture of the source pattern stops before it, since the
regex dot never matches a newline.) -/
theorem paren_single_letter_point :
    ∀ (body : String), body.data.head?.map isWs = some false →
      body.data.all (fun d => !(d == '\n')) = true →
      detect_numbering ("(i) " ++ body) = (some "point", some "i", body)
      ∧ detect_numbering ("(ii) " ++ body) = (some "subpoint", some "ii", body) := by
  intro body h hnl
  obtain ⟨c, cs, hdata⟩ : ∃ c cs, body.data = c :: cs := by
    cases hb : body.data with
    | nil => rw [hb] at h; simp at h
    | cons c cs => exact ⟨c, cs, rfl⟩
  have hc : isWs c = false := by
    rw [hdata] at h; simpa using h
  have hmk : String.mk (c :: cs) = body := by
    rw [← hdata]
  have hnl' : ∀ d ∈ c :: cs, (!(d == '\n')) = true := by
    rw [hdata] at hnl
    exact fun d hd => List.all_eq_true.mp hnl d hd
  have hdrop : (' ' :: c :: cs).dropWhile isWs = c :: cs := by
    rw [show (' ' :: c :: cs).dropWhile isWs = (c :: cs).dropWhile isWs from rfl,
      List.dropWhile_cons, hc]
    simp
  have hws : wsStarBody (' ' :: c :: cs) = some (c :: cs) := by
    unfold wsStarBody
    rw [hdrop]
    simp only [List.isEmpty_cons, Bool.false_eq_true, if_false]
    rw [List.takeWhile_eq_self_iff.mpr hnl']
  constructor
  · have e5 : dnParenLetter ('(' :: 'i' :: ')' :: ' ' :: c :: cs)
        = some ("i", String.mk (c :: cs)) := by
      have estep : dnParenLetter ('(' :: 'i' :: ')' :: ' ' :: c :: cs)
          = (match wsStarBody (' ' :: c :: cs) with
             | some b => some ("i", String.mk b)
             | none => none) := rfl
      rw [estep, hws]
    have dstep : detect_numbering (String.mk ('(' :: 'i' :: ')' :: ' ' :: c :: cs))
        = (match dnParenLetter ('(' :: 'i' :: ')' :: ' ' :: c :: cs) with
           | some (mk, b) => (some "point", some mk, b)
           | none =>
             match dnParenRun isRomanCI ('(' :: 'i' :: ')' :: ' ' :: c :: cs) with
             | some (mk, b) => (some "subpoint", some mk, b)
             | none => (none, none, String.mk ('(' :: 'i' :: ')' :: ' ' :: c :: cs))) := rfl
    rw [← hmk]
    have harg : ("(i) " ++ String.mk (c :: cs))
        = String.mk ('(' :: 'i' :: ')' :: ' ' :: c :: cs) := rfl
    rw [harg, dstep, e5]
  · have e6 : dnParenRun isRomanCI ('(' :: 'i' :: 'i' :: ')' :: ' ' :: c :: cs)
        = some ("ii", String.mk (c :: cs)) := by
      have estep : dnParenRun isRomanCI ('(' :: 'i' :: 'i' :: ')' :: ' ' :: c :: cs)
          = (match wsStarBody (' ' :: c :: cs) with
             | some b => some ("ii", String.mk b)
             | none => none) := rfl
      rw [estep, hws]
    have dstep : detect_numbering (String.mk ('(' :: 'i' :: 'i' :: ')' :: ' ' :: c :: cs))
        = (match dnParenRun isRomanCI ('(' :: 'i' :: 'i' :: ')' :: ' ' :: c :: cs) with
           | some (mk, b) => (some "subpoint", some mk, b)
           | none => (none, none, String.mk ('(' :: 'i' :: 'i' :: ')' :: ' ' :: c :: cs))) := rfl
    rw [← hmk]
    have harg : ("(ii) " ++ String.mk (c :: cs))
        = String.mk ('(' :: 'i' :: 'i' :: ')' :: ' ' :: c :: cs) := rfl
    rw [harg, dstep, e6]

/-- Witness for C7 at the body text. -/
theorem paren_single_letter_point_witness :
    detect_numbering "(i) text" = (some "point", some "i", "text")
      ∧ detect_numbering "(ii) text" = (some "subpoint", some "ii", "text") :=
  paren_single_letter_point "text" (by decide) (by decide)


/-- C9: a block that classifies as a plain paragraph or table, matches
no numbering pattern and (for the eu loop) no Whereas cue, leaves the
whole loop state unchanged when the ancestor stack is empty: the text
is silently discarded by both parsers. -/
theorem unclassifiable_block_discarded :
    (∀ (lang : String) (st : EuState) (tag txt : String) (b : Block),
      st.stack = [] →
      classify_block tag txt lang = some b →
      (b.type = "paragraph" ∨ b.type = "table") →
      (detect_numbering (normalize_text b.text)).1 = none →
      whereasStart (normalize_text b.text) = false →
      euStep lang st (tag, txt) = st)
    ∧ (∀ (lang : String) (st : MdrState) (tag txt : String) (b : Block),
      st.stack = [] →
      classify_block tag txt lang = some b →
      (b.type = "paragraph" ∨ b.type = "table") →
      (detect_numbering (normalize_text b.text)).1 = none →
      mdrStep lang st (tag, txt) = st) := by
  constructor
  · intro lang st tag txt b hstack hcb htype hdn hwh
    unfold euStep
    rw [hcb]
    dsimp only
    by_cases hempty : (normalize_text b.text == "") = true
    · rw [if_pos hempty]
    · rw [if_neg hempty]
      have hf : headingFields (langKeywordsGet lang) b.type (normalize_text b.text) = none := by
        rcases htype with ht | ht <;> rw [ht] <;> rfl
      rw [hf]
      unfold euNumbered
      dsimp only
      rw [hdn]
      rw [show canonicalize_numbered_level none CONFIG_EU_AI = none from rfl]
      rw [hwh, hstack]
      simp
  · intro lang st tag txt b hstack hcb htype hdn
    unfold mdrStep
    rw [hcb]
    dsimp only
    by_cases hempty : (normalize_text b.text == "") = true
    · rw [if_pos hempty]
    · rw [if_neg hempty]
      have hf : headingFields (langKeywordsGet lang) b.type (normalize_text b.text) = none := by
        rcases htype with ht | ht <;> rw [ht] <;> rfl
      rw [hf]
      dsimp only
      rw [hdn]
      rw [show canonicalize_numbered_level none CONFIG_MDR = none from rfl]
      rw [hstack]

/-- Witness for C9 at a concrete free-text block before any heading. -/
theorem unclassifiable_block_discarded_witness :
    euStep "EN" initialEuState ("p", "Unlabelled commentary text") = initialEuState
    ∧ mdrStep "EN" initialMdrState ("p", "Unlabelled commentary text") = initialMdrState :=
  ⟨unclassifiable_block_discarded.1 "EN" initialEuState "p" "Unlabelled commentary text"
      ⟨"paragraph", "Unlabelled commentary text"⟩ rfl (by decide) (Or.inl rfl) (by decide)
      (by decide),
    unclassifiable_block_discarded.2 "EN" initialMdrState "p" "Unlabelled commentary text"
      ⟨"paragraph", "Unlabelled commentary text"⟩ rfl (by decide) (Or.inl rfl) (by decide)⟩


/-- C5 counterexample: the eu configuration does not exclude article
from requirement classification, so an article heading whose text
carries an obligation keyword is classified as a requirement with
roles, against the claimed fixed defaults. -/
theorem article_requirement_counterexample :
    ((parse_eu_ai_act [("p", "Article 9 The provider shall keep records")] "EN").1.get? 0).map
        (fun p => (p.level, p.is_requirement, p.requirement_type, p.roles))
      = some ("article", true, "obligation", ["provider", "operator"])
    ∧ ((parse_eu_ai_act [("p", "Article 9 The provider shall keep records")] "EN").1.get?
        0).map (fun p => (p.level, p.is_requirement))
      ≠ some ("article", false) := by
  exact ⟨by decide, by decide⟩

/-- C5 amended: each parser's own excluded level set yields the fixed
defaults: title, chapter, section, annex and recital for the eu loop,
title, chapter, section, article and annex for the mdr loop. -/
theorem non_requirement_level_defaults :
    (∀ (blocks : List (String × String)) (lang : String) (k : Nat) (lvl : String),
      ((parse_eu_ai_act blocks lang).1.get? k).map Provision.level = some lvl →
      lvl ∈ (["title", "chapter", "section", "annex", "recital"] : List String) →
      ((parse_eu_ai_act blocks lang).1.get? k).map
        (fun p => (p.is_requirement, p.requirement_type, p.roles))
        = some (false, "other", []))
    ∧ (∀ (blocks : List (String × String)) (lang : String) (k : Nat) (lvl : String),
      ((parse_mdr blocks lang).1.get? k).map Provision.level = some lvl →
      lvl ∈ (["title", "chapter", "section", "article", "annex"] : List String) →
      ((parse_mdr blocks lang).1.get? k).map
        (fun p => (p.is_requirement, p.requirement_type, p.roles))
        = some (false, "other", [])) := by
  constructor
  · intro blocks lang k lvl hlev hmem
    have hnr : NonReqOk CONFIG_EU_AI (parse_eu_ai_act blocks lang).1 :=
      (parse_eu_ai_inv blocks lang).2.2.2
    cases hk : (parse_eu_ai_act blocks lang).1.get? k with
    | none => rw [hk] at hlev; exact absurd hlev (by simp)
    | some p =>
      rw [hk] at hlev
      simp only [Option.map_some'] at hlev
      obtain rfl : p.level = lvl := by injection hlev
      obtain ⟨h1, h2, h3⟩ := hnr p (List.get?_mem hk)
        (by simp [CONFIG_EU_AI]; simpa using hmem)
      simp [h1, h2, h3]
  · intro blocks lang k lvl hlev hmem
    have hnr : NonReqOk CONFIG_MDR (parse_mdr blocks lang).1 := parse_mdr_inv blocks lang
    cases hk : (parse_mdr blocks lang).1.get? k with
    | none => rw [hk] at hlev; exact absurd hlev (by simp)
    | some p =>
      rw [hk] at hlev
      simp only [Option.map_some'] at hlev
      obtain rfl : p.level = lvl := by injection hlev
      obtain ⟨h1, h2, h3⟩ := hnr p (List.get?_mem hk)
        (by simp [CONFIG_MDR]; simpa using hmem)
      simp [h1, h2, h3]

/-- Witness for C5 at a concrete chapter heading. -/
theorem non_requirement_level_defaults_witness :
    ((parse_eu_ai_act [("p", "CHAPTER I General provisions")] "EN").1.get? 0).map
      (fun p => (p.is_requirement, p.requirement_type, p.roles)) = some (false, "other", []) :=
  non_requirement_level_defaults.1 [("p", "CHAPTER I General provisions")] "EN" 0 "chapter"
    (by decide) (by decide)


/-- The block sequence of the C3 scenario. -/
def euAiScenarioBlocks : List (String × String) :=
  [("p", "Article 5"), ("p", "1. The provider shall ensure compliance."),
   ("p", "(a) registration records")]

/-- C3 counterexample: in the scenario run, the paragraph node's roles
are not the claimed singleton list, because the operator vocabulary
also lists provider as a keyword and fires on the same text. -/
theorem scenario_roles_counterexample :
    ((parse_eu_ai_act euAiScenarioBlocks "EN").1.map Provision.roles).get? 1
      ≠ some ["provider"] := by
  decide

/-- C3 amended: the scenario produces exactly the article 5 node, its
obligation paragraph 1 with roles provider and operator, and the
grandchild letter a, with exactly the two HAS_CHILD edges. -/
theorem scenario_article_paragraph_letter :
    (parse_eu_ai_act euAiScenarioBlocks "EN").1.map
        (fun p => (p.level, p.item_number, p.parent_id, p.is_requirement,
          p.requirement_type, p.roles))
      = [("article", some "5", none, false, "other", []),
         ("paragraph", some "1", some "32024R1689_EN_article_5", true, "obligation",
           ["provider", "operator"]),
         ("letter", some "a", some "32024R1689_EN_article_5_paragraph_1", false, "other", [])]
    ∧ (parse_eu_ai_act euAiScenarioBlocks "EN").2.filter (fun r => r.type == "HAS_CHILD")
      = [⟨"32024R1689_EN_article_5", "HAS_CHILD", "32024R1689_EN_article_5_paragraph_1"⟩,
         ⟨"32024R1689_EN_article_5_paragraph_1", "HAS_CHILD",
           "32024R1689_EN_article_5_paragraph_1_letter_a"⟩] := by
  exact ⟨by rfl, by rfl⟩


/-- C1 counterexample: an incoming recital pops a non-recital ancestor.
After the article heading opens an article node, a Whereas block is
reinterpreted as a recital; were non-recital entries exempt from its
pops, the recital would attach under the article with a HAS_CHILD edge,
but the run leaves the recital parentless and edge-free. -/
theorem recital_pop_counterexample :
    (parse_eu_ai_act [("p", "Article 5 Prohibited practices"),
        ("p", "Whereas new considerations apply")] "EN").1.map
        (fun p => (p.level, p.parent_id))
      = [("article", none), ("recital", none)]
    ∧ (parse_eu_ai_act [("p", "Article 5 Prohibited practices"),
        ("p", "Whereas new considerations apply")] "EN").2.filter
        (fun r => r.type == "HAS_CHILD")
      = [] := by
  exact ⟨by rfl, by rfl⟩

/-- C1 amended: the pop phase treats an incoming recital by the normal
rank comparison, so it can pop non-recital entries; what does hold is
that after any pop phase the surviving top has rank below the incoming
rank and is never a recital, so a recital on top always yields, and in
every run no provision ever has a recital as its parent: recitals are
flat siblings, never nested under one another. -/
theorem recitals_never_parents :
    (∀ (provs : List Provision) (stack : List Nat) (cur j : Nat),
      (stack.dropWhile (euPopCond provs cur)).head? = some j →
      ¬(cur ≤ levelRank (provAt provs j).level) ∧ (provAt provs j).level ≠ "recital")
    ∧ (∀ (blocks : List (String × String)) (lang : String) (k : Nat) (pid : String),
      ((parse_eu_ai_act blocks lang).1.get? k).map Provision.parent_id = some (some pid) →
      ∃ j q, j < k ∧ (parse_eu_ai_act blocks lang).1.get? j = some q ∧ q.id = pid ∧
        q.level ≠ "recital") := by
  constructor
  · intro provs stack cur j hj
    have hfalse := dropWhile_head?_false _ stack j hj
    unfold euPopCond at hfalse
    simp at hfalse
    exact ⟨Nat.not_le_of_lt hfalse.1, hfalse.2⟩
  · intro blocks lang k pid hk
    have hpar : ParentOk (parse_eu_ai_act blocks lang).1 :=
      (parse_eu_ai_inv blocks lang).2.1
    cases hg : (parse_eu_ai_act blocks lang).1.get? k with
    | none => rw [hg] at hk; exact absurd hk (by simp)
    | some p =>
      rw [hg] at hk
      simp only [Option.map_some'] at hk
      have hpid : p.parent_id = some pid := by injection hk
      exact hpar k p hg pid hpid

/-- Witness for C1 at a concrete chapter and article run. -/
theorem recitals_never_parents_witness :
    ∃ j q, j < 1 ∧ (parse_eu_ai_act [("p", "CHAPTER I"), ("p", "Article 3")] "EN").1.get? j
        = some q ∧ q.id = "32024R1689_EN_chapter_I" ∧ q.level ≠ "recital" :=
  recitals_never_parents.2 [("p", "CHAPTER I"), ("p", "Article 3")] "EN" 1
    "32024R1689_EN_chapter_I" (by rfl)


/-- C8 counterexample: two identical Article 7 headings produce two
provisions with the same id, and the HAS_CHILD edge from the article to
its paragraph then appears twice in the relations, not exactly once. -/
theorem haschild_duplicate_counterexample :
    ((parse_eu_ai_act [("p", "Article 7"), ("p", "1. First."), ("p", "Article 7"),
        ("p", "1. First.")] "EN").2.filter
        (fun r => decide (r = ⟨"32024R1689_EN_article_7", "HAS_CHILD",
          "32024R1689_EN_article_7_paragraph_1"⟩))).length = 2
    ∧ (2 : Nat) ≠ 1 := by
  exact ⟨by rfl, by decide⟩

/-- C8 amended: every non-root provision's parent_id is the id of an
earlier provision, and the HAS_CHILD edge for a (parent_id, id) pair
occurs in the relations with multiplicity equal to the number of
provisions carrying that pair: at least once, and exactly once
whenever no other provision duplicates the pair. -/
theorem tree_integrity :
    ∀ (blocks : List (String × String)) (lang : String) (k : Nat) (pid cid : String),
      ((parse_eu_ai_act blocks lang).1.get? k).map (fun p => (p.parent_id, p.id))
        = some (some pid, cid) →
      (∃ j q, j < k ∧ (parse_eu_ai_act blocks lang).1.get? j = some q ∧ q.id = pid)
      ∧ 1 ≤ ((parse_eu_ai_act blocks lang).2.filter
            (fun r => decide (r = ⟨pid, "HAS_CHILD", cid⟩))).length
      ∧ ((parse_eu_ai_act blocks lang).2.filter
            (fun r => decide (r = ⟨pid, "HAS_CHILD", cid⟩))).length
          = ((parse_eu_ai_act blocks lang).1.filter
            (fun q => decide (q.parent_id = some pid ∧ q.id = cid))).length := by
  intro blocks lang k pid cid hk
  cases hg : (parse_eu_ai_act blocks lang).1.get? k with
  | none => rw [hg] at hk; exact absurd hk (by simp)
  | some p =>
    rw [hg] at hk
    simp only [Option.map_some'] at hk
    have hpair : (p.parent_id, p.id) = (some pid, cid) := by injection hk
    have hppid : p.parent_id = some pid := congrArg Prod.fst hpair
    have hpcid : p.id = cid := congrArg Prod.snd hpair
    obtain ⟨hstack, hpar, hchild, hnr⟩ := parse_eu_ai_inv blocks lang
    have hex : ∃ j q, j < k ∧ (parse_eu_ai_act blocks lang).1.get? j = some q
        ∧ q.id = pid := by
      obtain ⟨j, q, hj, hq, hid, _⟩ := hpar k p hg pid hppid
      exact ⟨j, q, hj, hq, hid⟩
    have heq1 : ((parse_eu_ai_act blocks lang).2.filter
          (fun r => decide (r = ⟨pid, "HAS_CHILD", cid⟩))).length
        = ((blocks.foldl (euStep (pyUpper lang)) initialEuState).relations.filter
          (fun t => decide (t = (pid, "HAS_CHILD", cid)))).length :=
      filter_count_flatten _ pid "HAS_CHILD" cid
    have himp : ∀ t : String × String × String,
        decide (t = (pid, "HAS_CHILD", cid)) = true → (t.2.1 == "HAS_CHILD") = true := by
      intro t ht
      rw [of_decide_eq_true ht]
      rfl
    have heq2 : ((blocks.foldl (euStep (pyUpper lang)) initialEuState).relations.filter
          (fun t => decide (t = (pid, "HAS_CHILD", cid)))).length
        = ((blocks.foldl (euStep (pyUpper lang)) initialEuState).provisions.filter
          (fun q => decide (q.parent_id = some pid ∧ q.id = cid))).length := by
      rw [filter_sub (fun t => t.2.1 == "HAS_CHILD")
        (fun t => decide (t = (pid, "HAS_CHILD", cid))) _ himp]
      rw [hchild]
      rw [length_filter_filterMap]
      refine congrArg List.length (List.filter_congr ?_)
      intro a _
      cases hpa : a.parent_id with
      | none => simp [hcEdge, hpa]
      | some x =>
        by_cases hx : x = pid <;> by_cases hic : a.id = cid <;>
          simp [hcEdge, hpa, hx, hic, Prod.ext_iff]
    have hmem : p ∈ (parse_eu_ai_act blocks lang).1.filter
        (fun q => decide (q.parent_id = some pid ∧ q.id = cid)) :=
      List.mem_filter.mpr ⟨List.get?_mem hg, by simp [hppid, hpcid]⟩
    have hpos : 0 < ((parse_eu_ai_act blocks lang).1.filter
        (fun q => decide (q.parent_id = some pid ∧ q.id = cid))).length :=
      List.length_pos.mpr (List.ne_nil_of_mem hmem)
    refine ⟨hex, ?_, heq1.trans heq2⟩
    rw [heq1.trans heq2]
    exact hpos

/-- Witness for C8 at a concrete two-block run. -/
theorem tree_integrity_witness :
    (∃ j q, j < 1 ∧ (parse_eu_ai_act [("p", "Article 3"), ("p", "1. Scope.")] "EN").1.get? j
        = some q ∧ q.id = "32024R1689_EN_article_3")
    ∧ 1 ≤ ((parse_eu_ai_act [("p", "Article 3"), ("p", "1. Scope.")] "EN").2.filter
          (fun r => decide (r = ⟨"32024R1689_EN_article_3", "HAS_CHILD",
            "32024R1689_EN_article_3_paragraph_1"⟩))).length
    ∧ ((parse_eu_ai_act [("p", "Article 3"), ("p", "1. Scope.")] "EN").2.filter
          (fun r => decide (r = ⟨"32024R1689_EN_article_3", "HAS_CHILD",
            "32024R1689_EN_article_3_paragraph_1"⟩))).length
        = ((parse_eu_ai_act [("p", "Article 3"), ("p", "1. Scope.")] "EN").1.filter
          (fun q => decide (q.parent_id = some "32024R1689_EN_article_3"
            ∧ q.id = "32024R1689_EN_article_3_paragraph_1"))).length :=
  tree_integrity [("p", "Article 3"), ("p", "1. Scope.")] "EN" 1 "32024R1689_EN_article_3"
    "32024R1689_EN_article_3_paragraph_1" (by rfl)

end Crss
